import Mathlib

/-!
falco `yaml_configuration`: typed access to a YAML document.

Shallow embedding of `userspace/falco/configuration.h`.

The class keeps the parsed document in `m_root`, a `YAML::Node` of yaml-cpp, and every
accessor is a short composition of yaml-cpp primitives (`operator[]`, `IsDefined`,
`as<T>`, `operator=`).  The first part of this file (namespace `YAML`) is a functional
model of the primitives the header uses, following yaml-cpp 0.5.x:

* a node is undefined, null, a scalar (stored as text), a sequence or a map whose entries
  are kept in insertion order;
* the non-const `node[key]` throws `BadSubscript` on a scalar, turns an undefined, null or
  sequence node into a map (`convert_to_map`) and then returns the value of the first
  entry whose key is a scalar with the text `key`, or a fresh undefined node;
* `node.as<T>()` throws `BadConversion` when `convert<T>::decode` rejects the node;
* `node = value` stores `convert<T>::encode(value)` in the referenced node and marks it
  and the nodes it was reached through as defined.

yaml-cpp also records the fresh undefined node of a failed lookup in the parent map.
No accessor of the header can observe such a placeholder (`IsDefined` is false on it and
iteration skips it), so the model does not store it.

The second part (namespace `yaml_configuration`) embeds the constructor and the member
functions, with the object passed explicitly and returned next to the result and the text
sent to `std::cerr`.  The constructor takes the file system and the parser behind
`YAML::LoadFile` as parameters.

The third part (namespace `falco_configuration`) is about the routines of
`falco_configuration` that work on the document store.  The header declares them without
a body, so they are written after their description in the specification and say so.

`YAML.Node` is a value: it describes a document in which every node is held in one place,
that is, a document without aliases.  The fourth part (namespaces `YAML.Shared` and
`WithAliases`) gives the same model and the same member functions for documents in which
a node can be held in several places, and the lemmas after it show that on a document
without aliases the two agree, call by call.
-/

namespace YAML

/-- The yaml-cpp exceptions that can leave the member functions of the header. -/
inductive Exception where
  | BadFile
  | ParserException
  | BadConversion
  | BadSubscript
  deriving DecidableEq, Repr

/-- A document node: `YAML::Node` seen as a value.  `undefined` is a node whose
`IsDefined()` is false; scalars keep their text, as yaml-cpp does.  A value has no
identity: it stands for a node that is held in one place only, as all nodes of a document
without aliases are (`YAML.Shared.Node` below is for the documents with aliases). -/
inductive Node where
  | undefined : Node
  | null : Node
  | scalar : String → Node
  | sequence : List Node → Node
  | map : List (Node × Node) → Node

namespace Node

/-- `Node::IsDefined()`. -/
def IsDefined : Node → Bool
  | undefined => false
  | _ => true

/-- `Node::IsScalar()`. -/
def IsScalar : Node → Bool
  | scalar _ => true
  | _ => false

/-- `Node::IsSequence()`. -/
def IsSequence : Node → Bool
  | sequence _ => true
  | _ => false

/-- `Node::IsMap()`. -/
def IsMap : Node → Bool
  | map _ => true
  | _ => false

/-- `Node::IsNull()`. -/
def IsNull : Node → Bool
  | null => true
  | _ => false

/-- `detail::node::equals(key)` for a `std::string` key: the key node has to decode as a
string, that is, be a scalar, and its text has to be `key`. -/
def equals : Node → String → Bool
  | scalar s, key => s == key
  | _, _ => false

/-- The search loop of `node_data::get`: the value of the first entry whose key equals
`key`. -/
def find_value : List (Node × Node) → String → Option Node
  | [], _ => none
  | (k, v) :: rest, key => if k.equals key then some v else find_value rest key

/-- Entries after the node returned by `node_data::get` for `key` received the content
`x`: the first entry with that key is overwritten in place, otherwise a new pair is put at
the end (`insert_map_pair`). -/
def assign_value : List (Node × Node) → String → Node → List (Node × Node)
  | [], key, x => [(scalar key, x)]
  | (k, v) :: rest, key, x =>
    if k.equals key then (k, x) :: rest else (k, v) :: assign_value rest key x

/-- `node_data::convert_sequence_to_map`: element `i` becomes the value of the scalar key
that holds the decimal text of `i`. -/
def convert_sequence_to_map (xs : List Node) : List (Node × Node) :=
  xs.enum.map (fun p => (scalar (toString p.1), p.2))

/-- Entries of a node once `node_data::get` has made it a map: a map keeps its entries,
a sequence is converted, an undefined or null node starts empty. -/
def map_entries : Node → List (Node × Node)
  | map es => es
  | sequence xs => convert_sequence_to_map xs
  | _ => []

/-- The node a document node holds at `key`, if it holds one. -/
def entry (n : Node) (key : String) : Option Node :=
  find_value n.map_entries key

/-- The node referenced by the non-const `node[key]` with a `std::string` key
(`node_data::get`): `BadSubscript` on a scalar, otherwise the first matching value among
the entries, or an undefined node. -/
def subscript (n : Node) (key : String) : Except Exception Node :=
  if n.IsScalar then .error .BadSubscript
  else .ok ((n.entry key).getD undefined)

/-- The node referenced by `node[key][subkey]`: the second `operator[]` is applied to the
node the first one returned, and is not reached when the first one throws. -/
def subscript2 (n : Node) (key subkey : String) : Except Exception Node :=
  match n.subscript key with
  | .error e => .error e
  | .ok child => child.subscript subkey

/-- Whether the node held at `key` is a scalar. -/
def holds_scalar (n : Node) (key : String) : Bool :=
  match n.entry key with
  | some c => c.IsScalar
  | none => false

/-- Elements of a sequence node, in document order (what the range-for loop visits). -/
def items : Node → List Node
  | sequence xs => xs
  | _ => []

/-- The node itself after `node[key]` was evaluated and the referenced child was left
as it was: the conversion to a map stays (a null or a sequence is a map from then on),
an undefined node stays undefined. -/
def after_subscript : Node → Node
  | undefined => undefined
  | scalar s => scalar s
  | n => map n.map_entries

/-- The node itself after the child referenced by `node[key]` took the content `child`.
A defined child marks the node defined (`mark_defined` follows the dependencies recorded
by `node::get`) and sits in the entry for `key`; an undefined child leaves no trace. -/
def with_child (n : Node) (key : String) (child : Node) : Node :=
  if child.IsDefined then map (assign_value n.map_entries key child)
  else n.after_subscript

end Node

/-- `YAML::convert<T>`: how a value of `T` is written to a node and read from one. -/
class convert (T : Type) where
  encode : T → Node
  decode : Node → Option T

/-- A conversion that reads back what it wrote, and writes defined nodes: holds for the
conversions of yaml-cpp on strings, booleans and integers. -/
class Faithful (T : Type) [convert T] : Prop where
  encode_defined : ∀ v : T, (convert.encode v).IsDefined = true
  decode_encode : ∀ v : T, convert.decode (convert.encode v) = some v

/-- `convert<std::string>`: a string is written as a scalar; only a scalar reads as a
string. -/
instance : convert String where
  encode := Node.scalar
  decode
    | Node.scalar s => some s
    | _ => none

instance : Faithful String where
  encode_defined := fun _ => rfl
  decode_encode := fun _ => rfl

/-- The C++ type `uint32_t`. -/
abbrev uint32_t : Type := Fin 4294967296

/-- `std::isspace` in the "C" locale. -/
def isspace (c : Char) : Bool :=
  c == ' ' || (9 ≤ c.toNat && c.toNat ≤ 13)

/-- Value of a character as a digit, letters standing for ten to fifteen. -/
def digit_value (c : Char) : Option Nat :=
  if 48 ≤ c.toNat ∧ c.toNat ≤ 57 then some (c.toNat - 48)
  else if 97 ≤ c.toNat ∧ c.toNat ≤ 102 then some (c.toNat - 87)
  else if 65 ≤ c.toNat ∧ c.toNat ≤ 70 then some (c.toNat - 55)
  else none

/-- The digits phase of `num_get`: the longest run of digits of the base is consumed and
accumulated.  Returns the value, the number of digits read and the unread input. -/
def read_digits (base : Nat) : List Char → Nat → Nat → Nat × Nat × List Char
  | [], acc, cnt => (acc, cnt, [])
  | c :: cs, acc, cnt =>
    match digit_value c with
    | some d =>
      if d < base then read_digits base cs (acc * base + d) (cnt + 1) else (acc, cnt, c :: cs)
    | none => (acc, cnt, c :: cs)

/-- The sign phase of `num_get`: an optional `+` or `-`. -/
def read_sign : List Char → Bool × List Char
  | '-' :: cs => (true, cs)
  | '+' :: cs => (false, cs)
  | cs => (false, cs)

/-- The base phase of `num_get` when `basefield` is unset: `0x` or `0X` announces
hexadecimal, another leading `0` octal (and is itself a digit read), anything else
decimal.  Returns the base, whether a zero digit was read, and the unread input. -/
def read_base : List Char → Nat × Bool × List Char
  | '0' :: 'x' :: cs => (16, false, cs)
  | '0' :: 'X' :: cs => (16, false, cs)
  | '0' :: cs => (8, true, cs)
  | cs => (10, false, cs)

/-- The extraction `stream >> rhs` for `uint32_t` after `stream.unsetf(std::ios::dec)`:
leading white space is skipped, then sign, base and digits are read.  The extraction fails
without a digit or when the digits exceed the largest `uint32_t`; a minus sign negates
modulo `2^32`.  Returns the value and the unread input. -/
def extract_uint32 (input : List Char) : Option (uint32_t × List Char) :=
  let signed := read_sign (input.dropWhile isspace)
  let based := read_base signed.2
  let digits := read_digits based.1 based.2.2 0 0
  if digits.2.1 = 0 ∧ based.2.1 = false then none
  else if h : digits.1 < 4294967296 then
    some (if signed.1 then -(⟨digits.1, h⟩ : uint32_t) else ⟨digits.1, h⟩, digits.2.2)
  else none

/-- `convert<uint32_t>` as `YAML_DEFINE_CONVERT_STREAMABLE` defines it: the value is
written as its decimal text; a node reads as a number when it is a scalar from whose text
a number can be extracted, with nothing but white space left after it. -/
instance : convert uint32_t where
  encode := fun n => Node.scalar (toString n.val)
  decode
    | Node.scalar input =>
      match extract_uint32 input.toList with
      | some (rhs, rest) => if (rest.dropWhile isspace).isEmpty then some rhs else none
      | none => none
    | _ => none

/-- An exception of yaml-cpp in flight: which one, and the text of its `what()`. -/
structure Thrown where
  exception : Exception
  what : String

/-- `YAML::LoadFile(filename)` of yaml-cpp 0.5.x:
`std::ifstream fin(filename.c_str()); if (!fin) throw BadFile(); return Load(fin);`.
The file system is the function `files`, which gives the content of the file that can be
opened for reading at a path, if there is one; the parser is the function `Load`, which
gives the root node of a well-formed input or the `what()` of the `ParserException` it
throws.  The `what()` of `BadFile` is the text `bad file`. -/
def LoadFile (files : String → Option String) (Load : String → Except String Node)
    (filename : String) : Except Thrown Node :=
  match files filename with
  | none => .error ⟨.BadFile, "bad file"⟩
  | some input =>
    match Load input with
    | .ok root => .ok root
    | .error what => .error ⟨.ParserException, what⟩

end YAML

open YAML

/-- The object of class `yaml_configuration`: its two data members. -/
structure yaml_configuration where
  m_path : String
  m_root : Node

instance {ε α : Type} [DecidableEq ε] [DecidableEq α] : DecidableEq (Except ε α)
  | .ok a, .ok b => if h : a = b then isTrue (by rw [h]) else isFalse (by simp [h])
  | .error a, .error b => if h : a = b then isTrue (by rw [h]) else isFalse (by simp [h])
  | .ok _, .error _ => isFalse (by simp)
  | .error _, .ok _ => isFalse (by simp)

/-- What a member function call leaves behind: the value returned or the exception that
escaped, the text written to `std::cerr`, and the object after the call. -/
structure Outcome (α : Type) where
  result : Except Exception α
  cerr : String
  config : yaml_configuration

/-- What the caller of a member function observes of the call: the value returned or the
exception, and the text on `std::cerr`. -/
def Outcome.observed {α : Type} (o : Outcome α) : Except Exception α × String :=
  (o.result, o.cerr)

/-- What the constructor leaves behind: the object, or the exception that left the
constructor (no object exists then), and the text written to `std::cerr`. -/
structure Constructed where
  result : Except Exception yaml_configuration
  cerr : String

namespace yaml_configuration

/-- The constructor `yaml_configuration(path)`, lines 36-55, with the file system and the
parser behind `YAML::LoadFile` as parameters.  The two handlers print their diagnostic and
rethrow; another exception would pass through unhandled. -/
def construct (files : String → Option String) (Load : String → Except String Node)
    (path : String) : Constructed :=
  match LoadFile files Load path with
  | .ok root => ⟨.ok ⟨path, root⟩, ""⟩
  | .error ex =>
    match ex.exception with
    | .BadFile =>
      ⟨.error .BadFile, "Error reading config file (" ++ path ++ "): " ++ ex.what ++ "\n"⟩
    | .ParserException =>
      ⟨.error .ParserException, "Cannot read config file (" ++ path ++ "): " ++ ex.what ++ "\n"⟩
    | e => ⟨.error e, ""⟩

/-- A document that came out of a successful load: its root is defined. -/
def Loaded (self : yaml_configuration) : Prop := self.m_root.IsDefined = true

instance (self : yaml_configuration) : Decidable self.Loaded := by
  unfold Loaded; infer_instance

/-- The diagnostic printed by the `catch (const YAML::BadConversion&)` handlers. -/
def wrong_type_message (self : yaml_configuration) (key : String) : String :=
  "Cannot read config file (" ++ self.m_path ++ "): wrong type at key " ++ key ++ "\n"

/-- `get_scalar(key, default_value)`, lines 60-77. -/
def get_scalar {T : Type} [convert T] (self : yaml_configuration) (key : String)
    (default_value : T) : Outcome T :=
  match self.m_root.subscript key with
  | .error e => ⟨.error e, "", self⟩
  | .ok node =>
    let self' := { self with m_root := self.m_root.after_subscript }
    if node.IsDefined then
      match (convert.decode node : Option T) with
      | some v => ⟨.ok v, "", self'⟩
      | none => ⟨.error .BadConversion, self.wrong_type_message key, self'⟩
    else ⟨.ok default_value, "", self'⟩

/-- `set_scalar(key, value)`, lines 82-90. -/
def set_scalar {T : Type} [convert T] (self : yaml_configuration) (key : String)
    (value : T) : Outcome Unit :=
  let node := self.m_root
  if node.IsDefined then
    match node.subscript key with
    | .error e => ⟨.error e, "", self⟩
    | .ok _ => ⟨.ok (), "", { self with m_root := node.with_child key (convert.encode value) }⟩
  else ⟨.ok (), "", self⟩

/-- `get_scalar(key, subkey, default_value)`, lines 100-118. -/
def get_scalar2 {T : Type} [convert T] (self : yaml_configuration) (key subkey : String)
    (default_value : T) : Outcome T :=
  match self.m_root.subscript key with
  | .error e => ⟨.error e, "", self⟩
  | .ok child =>
    match child.subscript subkey with
    | .error e => ⟨.error e, "", { self with m_root := self.m_root.after_subscript }⟩
    | .ok node =>
      let self' := { self with m_root := self.m_root.with_child key child.after_subscript }
      if node.IsDefined then
        match (convert.decode node : Option T) with
        | some v => ⟨.ok v, "", self'⟩
        | none => ⟨.error .BadConversion, self.wrong_type_message key, self'⟩
      else ⟨.ok default_value, "", self'⟩

/-- `set_scalar(key, subkey, value)`, lines 123-131. -/
def set_scalar2 {T : Type} [convert T] (self : yaml_configuration) (key subkey : String)
    (value : T) : Outcome Unit :=
  let node := self.m_root
  if node.IsDefined then
    match node.subscript key with
    | .error e => ⟨.error e, "", self⟩
    | .ok child =>
      match child.subscript subkey with
      | .error e => ⟨.error e, "", { self with m_root := node.after_subscript }⟩
      | .ok _ =>
        ⟨.ok (), "",
          { self with
            m_root := node.with_child key (child.with_child subkey (convert.encode value)) }⟩
  else ⟨.ok (), "", self⟩

/-- The range-for loop of lines 142-145: each item is converted and put at the end of
`ret`; the first item that does not convert ends the loop with `BadConversion`, the items
before it staying in `ret`. -/
def append_items {T : Type} [convert T] : List Node → List T → Except Exception Unit × List T
  | [], ret => (.ok (), ret)
  | item :: rest, ret =>
    match (convert.decode item : Option T) with
    | some v => append_items rest (ret ++ [v])
    | none => (.error .BadConversion, ret)

/-- What `get_sequence` leaves behind: as for the other calls, and the caller's container
`ret` after the call. -/
structure SequenceOutcome (T : Type) extends Outcome Unit where
  ret : List T

/-- `get_sequence(ret, name)`, lines 134-152.  `T` is the `value_type` of the caller's
container, which is modelled as a list (`ret.insert(ret.end(), x)` puts `x` last). -/
def get_sequence {T : Type} [convert T] (self : yaml_configuration) (ret : List T)
    (name : String) : SequenceOutcome T :=
  match self.m_root.subscript name with
  | .error e => ⟨⟨.error e, "", self⟩, ret⟩
  | .ok child_node =>
    let self' := { self with m_root := self.m_root.after_subscript }
    if child_node.IsDefined then
      if child_node.IsSequence then
        let looped := append_items child_node.items ret
        ⟨⟨looped.1, "", self'⟩, looped.2⟩
      else if child_node.IsScalar then
        match (convert.decode child_node : Option T) with
        | some v => ⟨⟨.ok (), "", self'⟩, ret ++ [v]⟩
        | none => ⟨⟨.error .BadConversion, "", self'⟩, ret⟩
      else ⟨⟨.ok (), "", self'⟩, ret⟩
    else ⟨⟨.ok (), "", self'⟩, ret⟩

/-- What the caller of `get_sequence` observes of the call: the exception if one escaped,
the text on `std::cerr`, and the container afterwards. -/
def SequenceOutcome.observed {T : Type} (o : SequenceOutcome T) :
    Except Exception Unit × String × List T :=
  (o.result, o.cerr, o.ret)

/-- What the three read accessors answer for a top-level key: the one-level
`get_scalar(key, default_value)`, the two-level `get_scalar(key, subkey, default_value)`
and `get_sequence(ret, key)`, each as its caller observes it. -/
def answers {U : Type} [convert U] (self : yaml_configuration) (key subkey : String)
    (default_value : U) (ret : List U) :
    (Except Exception U × String) × (Except Exception U × String)
      × (Except Exception Unit × String × List U) :=
  ((self.get_scalar key default_value).observed,
   (self.get_scalar2 key subkey default_value).observed,
   (self.get_sequence ret key).observed)

end yaml_configuration

namespace falco_configuration

/-- The failures that can leave the member functions of `falco_configuration`: the
rejection of an override specifier, or an exception of yaml-cpp coming from the document
store. -/
inductive Error where
  | InvalidOverrideError
  | yaml (e : Exception)
  deriving DecidableEq, Repr

/-- What a call that works on the document store `m_config` leaves behind: whether it
failed, the text on `std::cerr`, and the store after the call. -/
structure StoreOutcome where
  result : Except Error Unit
  cerr : String
  m_config : yaml_configuration

/-- The outcome of a call of the document store, seen from `falco_configuration`. -/
def of_store (o : Outcome Unit) : StoreOutcome :=
  match o.result with
  | .ok () => ⟨.ok (), o.cerr, o.config⟩
  | .error e => ⟨.error (.yaml e), o.cerr, o.config⟩

/-- Splitting a text at the first occurrence of `sep`: the text before it and the text
after it, or nothing when `sep` does not occur. -/
def split_first (sep : Char) : List Char → Option (List Char × List Char)
  | [] => none
  | c :: cs =>
    if c = sep then some ([], cs)
    else
      match split_first sep cs with
      | some (before, after) => some (c :: before, after)
      | none => none

/-- Modelled from the spec: the body of `falco_configuration::set_cmdline_option(spec)`,
which the header only declares (lines 178-184; the definition is in a file that is
missing).  Following the spec: the specifier is split on the first `=`, and the call fails
with `InvalidOverrideError` if no `=` is present or the key portion is empty; the key
portion is split on the first `.`: without a dot the one-level `set_scalar(key, value)` is
called, with one dot the two-level `set_scalar(key, subkey, value)`, and more than one dot
fails with `InvalidOverrideError`; the value portion is applied as a string. -/
def set_cmdline_option (m_config : yaml_configuration) (spec : String) : StoreOutcome :=
  match split_first '=' spec.toList with
  | none => ⟨.error .InvalidOverrideError, "", m_config⟩
  | some (key, value) =>
    if key.isEmpty then ⟨.error .InvalidOverrideError, "", m_config⟩
    else
      match split_first '.' key with
      | none => of_store (m_config.set_scalar (String.mk key) (String.mk value))
      | some (first, subkey) =>
        if '.' ∈ subkey then ⟨.error .InvalidOverrideError, "", m_config⟩
        else
          of_store
            (m_config.set_scalar2 (String.mk first) (String.mk subkey) (String.mk value))

/-- Modelled from the spec: step (b) of `init`, the body of
`falco_configuration::init_cmdline_options(cmdline_options)`, which the header only
declares.  Following the spec: each override specifier is applied in list order through
`set_cmdline_option`, and the first failure propagates. -/
def init_cmdline_options (m_config : yaml_configuration) :
    List String → StoreOutcome
  | [] => ⟨.ok (), "", m_config⟩
  | spec :: rest =>
    let applied := set_cmdline_option m_config spec
    match applied.result with
    | .error e => ⟨.error e, applied.cerr, applied.m_config⟩
    | .ok () =>
      let later := init_cmdline_options applied.m_config rest
      ⟨later.result, applied.cerr ++ later.cerr, later.m_config⟩

/-- What `init` leaves behind: the document store it built, or the failure that left it
(no store exists then), and the text written to `std::cerr`. -/
structure InitOutcome where
  result : Except Error yaml_configuration
  cerr : String

/-- Modelled from the spec: steps (a) and (b) of
`falco_configuration::init(conf_filename, cmdline_options)`, which the header only
declares (line 165).  Following the spec: (a) a document store is constructed for the
path, and a failure of the load propagates unchanged; (b) the override specifiers are
applied in list order.  Step (c), which reads the typed fields out of the store, comes
after these and is not part of this model: the store after step (b) is what is returned. -/
def init (files : String → Option String) (Load : String → Except String Node)
    (conf_filename : String) (cmdline_options : List String) : InitOutcome :=
  let built := yaml_configuration.construct files Load conf_filename
  match built.result with
  | .error e => ⟨.error (.yaml e), built.cerr⟩
  | .ok m_config =>
    let applied := init_cmdline_options m_config cmdline_options
    match applied.result with
    | .error e => ⟨.error e, built.cerr ++ applied.cerr⟩
    | .ok () => ⟨.ok applied.m_config, built.cerr ++ applied.cerr⟩

end falco_configuration

/-! ## Documents with aliases

An alias of a YAML document (`*x`) is inserted by yaml-cpp as the very node its anchor
(`&x`) names: the two places hold one `detail::node`, and a write or a conversion to a map,
which yaml-cpp does in place, shows in both.  `YAML.Node` above is the value of a document
without aliases, in which every node is held in one place.  What follows is the same model
and the same member functions for documents with aliases: a node that is held in more than
one place is kept in a table, and each of the places holds its number in the table. -/

namespace YAML.Shared

/-- A place of a document with aliases and what it holds: a node of its own, given with
the places of its children, or (`anchored i`) the shared node number `i` of the table. -/
inductive Node where
  | undefined : Node
  | null : Node
  | scalar : String → Node
  | sequence : List Node → Node
  | map : List (Node × Node) → Node
  | anchored : Nat → Node

mutual
/-- A document without aliases as a document with aliases: every node is a node of its
own. -/
def lift : YAML.Node → Node
  | .undefined => .undefined
  | .null => .null
  | .scalar text => .scalar text
  | .sequence items => .sequence (lift_items items)
  | .map entries => .map (lift_entries entries)
/-- The function `lift` on the elements of a sequence. -/
def lift_items : List YAML.Node → List Node
  | [] => []
  | item :: rest => lift item :: lift_items rest
/-- The function `lift` on the entries of a map. -/
def lift_entries : List (YAML.Node × YAML.Node) → List (Node × Node)
  | [] => []
  | (k, v) :: rest => (lift k, lift v) :: lift_entries rest
end

mutual
/-- The value below a place, the value of the shared node number `i` being `shared i`. -/
def resolve_with (shared : Nat → YAML.Node) : Node → YAML.Node
  | .undefined => .undefined
  | .null => .null
  | .scalar text => .scalar text
  | .sequence items => .sequence (resolve_items shared items)
  | .map entries => .map (resolve_entries shared entries)
  | .anchored i => shared i
/-- The function `resolve_with` on the elements of a sequence. -/
def resolve_items (shared : Nat → YAML.Node) : List Node → List YAML.Node
  | [] => []
  | item :: rest => resolve_with shared item :: resolve_items shared rest
/-- The function `resolve_with` on the entries of a map. -/
def resolve_entries (shared : Nat → YAML.Node) :
    List (Node × Node) → List (YAML.Node × YAML.Node)
  | [] => []
  | (k, v) :: rest =>
    (resolve_with shared k, resolve_with shared v) :: resolve_entries shared rest
end

mutual
/-- Whether no alias stands at a place or below it. -/
def alias_free : Node → Bool
  | .sequence items => alias_free_items items
  | .map entries => alias_free_entries entries
  | .anchored _ => false
  | _ => true
/-- The function `alias_free` on the elements of a sequence. -/
def alias_free_items : List Node → Bool
  | [] => true
  | item :: rest => alias_free item && alias_free_items rest
/-- The function `alias_free` on the entries of a map. -/
def alias_free_entries : List (Node × Node) → Bool
  | [] => true
  | (k, v) :: rest => alias_free k && alias_free v && alias_free_entries rest
end

/-- The value of the shared node number `i`, the aliases below it followed through at most
`fuel` shared nodes; a chain of aliases that does not run in a circle passes through each
shared node once at most. -/
def resolve_anchor (anchors : List Node) : Nat → Nat → YAML.Node
  | 0, _ => .undefined
  | fuel + 1, i => resolve_with (resolve_anchor anchors fuel) (anchors.getD i .undefined)

/-- The value below a place, as `as<T>()` and the iteration see it: the aliases stand for
the shared nodes of the table `anchors`. -/
def resolve (anchors : List Node) (place : Node) : YAML.Node :=
  resolve_with (resolve_anchor anchors anchors.length) place

namespace Node

/-- `Node::IsDefined()`, on the node a place holds. -/
def IsDefined : Node → Bool
  | undefined => false
  | _ => true

/-- `Node::IsScalar()`, on the node a place holds. -/
def IsScalar : Node → Bool
  | scalar _ => true
  | _ => false

/-- The node a place holds: for an alias, the shared node of that number.  YAML has no
alias of an alias, so that the table holds no alias at the top of a shared node. -/
def content (anchors : List Node) : Node → Node
  | anchored i =>
    match anchors.getD i undefined with
    | anchored _ => undefined
    | n => n
  | n => n

/-- `detail::node::equals(key)` for a `std::string` key, on the node held in the place of
a key. -/
def equals (anchors : List Node) (k : Node) (key : String) : Bool :=
  match content anchors k with
  | scalar s => s == key
  | _ => false

/-- The search loop of `node_data::get`: the place of the value of the first entry whose
key equals `key`. -/
def find_value (anchors : List Node) : List (Node × Node) → String → Option Node
  | [], _ => none
  | (k, v) :: rest, key =>
    if equals anchors k key then some v else find_value anchors rest key

/-- Entries after the place of the value for `key` took the node `x` as a node of its own:
in the first entry with that key, otherwise in a new pair at the end. -/
def assign_value (anchors : List Node) :
    List (Node × Node) → String → Node → List (Node × Node)
  | [], key, x => [(scalar key, x)]
  | (k, v) :: rest, key, x =>
    if equals anchors k key then (k, x) :: rest
    else (k, v) :: assign_value anchors rest key x

/-- `node_data::convert_sequence_to_map`: element `i` becomes the value of the scalar key
that holds the decimal text of `i`. -/
def convert_sequence_to_map (xs : List Node) : List (Node × Node) :=
  xs.enum.map (fun p => (scalar (toString p.1), p.2))

/-- Entries of a node once `node_data::get` has made it a map. -/
def map_entries : Node → List (Node × Node)
  | map es => es
  | sequence xs => convert_sequence_to_map xs
  | _ => []

/-- The place a node has for `key`, if it has one. -/
def entry (anchors : List Node) (n : Node) (key : String) : Option Node :=
  find_value anchors (map_entries n) key

/-- The place referenced by the non-const `node[key]` on the node `n`: `BadSubscript` on a
scalar, otherwise the place of the first matching value, or a fresh undefined node. -/
def subscript (anchors : List Node) (n : Node) (key : String) : Except Exception Node :=
  if n.IsScalar then .error .BadSubscript
  else .ok ((entry anchors n key).getD undefined)

/-- The node itself after `node[key]` was evaluated on it: a null or a sequence is a map
from then on. -/
def after_subscript : Node → Node
  | undefined => undefined
  | scalar s => scalar s
  | anchored i => anchored i
  | n => map (map_entries n)

/-- The place and the table after the node held in the place took the content `n`: a
shared node is rewritten in the table, for every place that holds it; a node of its own is
rewritten where it stands. -/
def put (anchors : List Node) (place n : Node) : Node × List Node :=
  match place with
  | anchored i => (anchored i, anchors.set i n)
  | _ => (n, anchors)

/-- The place and the table after the node in `place` was subscripted with `key` and the
place it has for `key` holds `held` from then on.  A shared node in that place was changed
in the table, if at all; a defined node of its own sits in the entry for `key` and marks
the node defined; an undefined one leaves no trace. -/
def hold (anchors : List Node) (place : Node) (key : String) (held : Node) :
    Node × List Node :=
  let n := content anchors place
  match held with
  | anchored _ => put anchors place n.after_subscript
  | _ =>
    if held.IsDefined then put anchors place (map (assign_value anchors n.map_entries key held))
    else put anchors place n.after_subscript

/-- The place and the table after the node referenced by `node[key]`, which is held in the
place `child`, took the content `x` (`node[key] = value`): a shared node takes it in the
table, for every place that holds it. -/
def with_child (anchors : List Node) (place : Node) (key : String) (child x : Node) :
    Node × List Node :=
  match child with
  | anchored i =>
    let converted := put anchors place (content anchors place).after_subscript
    if x.IsDefined then (converted.1, converted.2.set i x) else converted
  | _ => hold anchors place key x

end Node

end YAML.Shared

namespace WithAliases

/-- The object of class `yaml_configuration` for a document with aliases: `m_root` is the
place of the root, and `anchors` is the table of the shared nodes of the document. -/
structure yaml_configuration where
  m_path : String
  m_root : Shared.Node
  anchors : List Shared.Node

/-- What a member function call leaves behind, as `Outcome` above. -/
structure Outcome (α : Type) where
  result : Except Exception α
  cerr : String
  config : yaml_configuration

/-- What the caller of a member function observes of the call. -/
def Outcome.observed {α : Type} (o : Outcome α) : Except Exception α × String :=
  (o.result, o.cerr)

namespace yaml_configuration

/-- A document that came out of a successful load: its root is defined. -/
def Loaded (self : yaml_configuration) : Prop :=
  (Shared.Node.content self.anchors self.m_root).IsDefined = true

instance (self : yaml_configuration) : Decidable self.Loaded := by
  unfold Loaded; infer_instance

/-- The diagnostic printed by the `catch (const YAML::BadConversion&)` handlers. -/
def wrong_type_message (self : yaml_configuration) (key : String) : String :=
  "Cannot read config file (" ++ self.m_path ++ "): wrong type at key " ++ key ++ "\n"

/-- `get_scalar(key, default_value)`, lines 60-77. -/
def get_scalar {T : Type} [convert T] (self : yaml_configuration) (key : String)
    (default_value : T) : Outcome T :=
  let root := Shared.Node.content self.anchors self.m_root
  match root.subscript self.anchors key with
  | .error e => ⟨.error e, "", self⟩
  | .ok child =>
    let after := Shared.Node.put self.anchors self.m_root root.after_subscript
    let self' : yaml_configuration := ⟨self.m_path, after.1, after.2⟩
    let node := Shared.resolve after.2 child
    if node.IsDefined then
      match (convert.decode node : Option T) with
      | some v => ⟨.ok v, "", self'⟩
      | none => ⟨.error .BadConversion, self.wrong_type_message key, self'⟩
    else ⟨.ok default_value, "", self'⟩

/-- `set_scalar(key, value)`, lines 82-90. -/
def set_scalar {T : Type} [convert T] (self : yaml_configuration) (key : String)
    (value : T) : Outcome Unit :=
  let node := Shared.Node.content self.anchors self.m_root
  if node.IsDefined then
    match node.subscript self.anchors key with
    | .error e => ⟨.error e, "", self⟩
    | .ok child =>
      let after :=
        Shared.Node.with_child self.anchors self.m_root key child
          (Shared.lift (convert.encode value))
      ⟨.ok (), "", ⟨self.m_path, after.1, after.2⟩⟩
  else ⟨.ok (), "", self⟩

/-- `get_scalar(key, subkey, default_value)`, lines 100-118. -/
def get_scalar2 {T : Type} [convert T] (self : yaml_configuration) (key subkey : String)
    (default_value : T) : Outcome T :=
  let root := Shared.Node.content self.anchors self.m_root
  match root.subscript self.anchors key with
  | .error e => ⟨.error e, "", self⟩
  | .ok child =>
    let c := Shared.Node.content self.anchors child
    match c.subscript self.anchors subkey with
    | .error e =>
      let after := Shared.Node.put self.anchors self.m_root root.after_subscript
      ⟨.error e, "", ⟨self.m_path, after.1, after.2⟩⟩
    | .ok place =>
      let below := Shared.Node.put self.anchors child c.after_subscript
      let after := Shared.Node.hold below.2 self.m_root key below.1
      let self' : yaml_configuration := ⟨self.m_path, after.1, after.2⟩
      let node := Shared.resolve after.2 place
      if node.IsDefined then
        match (convert.decode node : Option T) with
        | some v => ⟨.ok v, "", self'⟩
        | none => ⟨.error .BadConversion, self.wrong_type_message key, self'⟩
      else ⟨.ok default_value, "", self'⟩

/-- `set_scalar(key, subkey, value)`, lines 123-131. -/
def set_scalar2 {T : Type} [convert T] (self : yaml_configuration) (key subkey : String)
    (value : T) : Outcome Unit :=
  let node := Shared.Node.content self.anchors self.m_root
  if node.IsDefined then
    match node.subscript self.anchors key with
    | .error e => ⟨.error e, "", self⟩
    | .ok child =>
      let c := Shared.Node.content self.anchors child
      match c.subscript self.anchors subkey with
      | .error e =>
        let after := Shared.Node.put self.anchors self.m_root node.after_subscript
        ⟨.error e, "", ⟨self.m_path, after.1, after.2⟩⟩
      | .ok grandchild =>
        let below :=
          Shared.Node.with_child self.anchors child subkey grandchild
            (Shared.lift (convert.encode value))
        let after := Shared.Node.hold below.2 self.m_root key below.1
        ⟨.ok (), "", ⟨self.m_path, after.1, after.2⟩⟩
  else ⟨.ok (), "", self⟩

/-- What `get_sequence` leaves behind, as `SequenceOutcome` above. -/
structure SequenceOutcome (T : Type) extends Outcome Unit where
  ret : List T

/-- What the caller of `get_sequence` observes of the call. -/
def SequenceOutcome.observed {T : Type} (o : SequenceOutcome T) :
    Except Exception Unit × String × List T :=
  (o.result, o.cerr, o.ret)

/-- `get_sequence(ret, name)`, lines 134-152. -/
def get_sequence {T : Type} [convert T] (self : yaml_configuration) (ret : List T)
    (name : String) : SequenceOutcome T :=
  let root := Shared.Node.content self.anchors self.m_root
  match root.subscript self.anchors name with
  | .error e => ⟨⟨.error e, "", self⟩, ret⟩
  | .ok child =>
    let after := Shared.Node.put self.anchors self.m_root root.after_subscript
    let self' : yaml_configuration := ⟨self.m_path, after.1, after.2⟩
    let child_node := Shared.resolve after.2 child
    if child_node.IsDefined then
      if child_node.IsSequence then
        let looped := yaml_configuration.append_items child_node.items ret
        ⟨⟨looped.1, "", self'⟩, looped.2⟩
      else if child_node.IsScalar then
        match (convert.decode child_node : Option T) with
        | some v => ⟨⟨.ok (), "", self'⟩, ret ++ [v]⟩
        | none => ⟨⟨.error .BadConversion, "", self'⟩, ret⟩
      else ⟨⟨.ok (), "", self'⟩, ret⟩
    else ⟨⟨.ok (), "", self'⟩, ret⟩

/-- The value of the node held at a top-level key, undefined when there is none. -/
def value_at (self : yaml_configuration) (key : String) : YAML.Node :=
  Shared.resolve self.anchors
    ((Shared.Node.entry self.anchors (Shared.Node.content self.anchors self.m_root) key).getD
      .undefined)

/-- What the three read accessors answer for a top-level key, as `answers` above. -/
def answers {U : Type} [convert U] (self : yaml_configuration) (key subkey : String)
    (default_value : U) (ret : List U) :
    (Except Exception U × String) × (Except Exception U × String)
      × (Except Exception Unit × String × List U) :=
  ((self.get_scalar key default_value).observed,
   (self.get_scalar2 key subkey default_value).observed,
   (self.get_sequence ret key).observed)

end yaml_configuration

end WithAliases

/-- A document without aliases as a document with aliases, next to any table of shared
nodes: no place of it names the table. -/
def yaml_configuration.aliased (self : yaml_configuration) (anchors : List Shared.Node) :
    WithAliases.yaml_configuration :=
  ⟨self.m_path, Shared.lift self.m_root, anchors⟩

/-! ## Lemmas on the model of yaml-cpp -/

namespace YAML.Node

theorem find_value_assign_value_same (es : List (Node × Node)) (key : String) (x : Node) :
    find_value (assign_value es key x) key = some x := by
  induction es with
  | nil => simp [assign_value, find_value, equals]
  | cons p rest ih =>
    obtain ⟨k, v⟩ := p
    by_cases h : k.equals key = true
    · simp [assign_value, find_value, h]
    · simp [assign_value, find_value, h, ih]

theorem subscript_of_not_scalar (n : Node) (key : String) (h : n.IsScalar = false) :
    n.subscript key = .ok ((n.entry key).getD undefined) := by
  simp [subscript, h]

theorem subscript_of_scalar (n : Node) (key : String) (h : n.IsScalar = true) :
    n.subscript key = .error .BadSubscript := by
  simp [subscript, h]

theorem not_scalar_of_entry (n c : Node) (key : String) (h : n.entry key = some c) :
    n.IsScalar = false := by
  cases n <;> simp_all [entry, map_entries, find_value, IsScalar]

theorem getD_entry_not_scalar (n : Node) (key : String) (h : n.holds_scalar key = false) :
    ((n.entry key).getD undefined).IsScalar = false := by
  unfold holds_scalar at h
  cases hc : n.entry key with
  | none => rfl
  | some c => simpa [hc] using h

theorem with_child_of_defined (n : Node) (key : String) (child : Node)
    (h : child.IsDefined = true) :
    n.with_child key child = map (assign_value n.map_entries key child) := by
  simp [with_child, h]

theorem entry_with_child_same (n : Node) (key : String) (child : Node)
    (h : child.IsDefined = true) :
    (n.with_child key child).entry key = some child := by
  rw [with_child_of_defined n key child h]
  simp [entry, map_entries, find_value_assign_value_same]

theorem with_child_not_scalar (n : Node) (key : String) (child : Node)
    (h : n.IsScalar = false) : (n.with_child key child).IsScalar = false := by
  unfold with_child
  split
  · rfl
  · cases n <;> simp_all [after_subscript, IsScalar]

theorem with_child_defined (n : Node) (key : String) (child : Node)
    (h : child.IsDefined = true) : (n.with_child key child).IsDefined = true := by
  rw [with_child_of_defined n key child h]; rfl

end YAML.Node

namespace YAML

/-! ### The decimal text of a number reads back as the number -/

theorem toDigitsCore_fuel (fuel : Nat) : ∀ (n : Nat) (ds : List Char), n < fuel →
    Nat.toDigitsCore 10 fuel n ds = Nat.toDigits 10 n ++ ds := by
  induction fuel using Nat.strong_induction_on with
  | _ fuel ih =>
    intro n ds hn
    cases fuel with
    | zero => omega
    | succ f =>
      unfold Nat.toDigits
      simp only [Nat.toDigitsCore]
      by_cases h0 : n / 10 = 0
      · simp [h0]
      · have hlt : n / 10 < n := by omega
        simp only [h0, if_false]
        rw [ih f (by omega) (n / 10) _ (by omega), ih n (by omega) (n / 10) _ hlt]
        simp

theorem toDigits_small (n : Nat) (h : n < 10) : Nat.toDigits 10 n = [Nat.digitChar n] := by
  unfold Nat.toDigits
  simp only [Nat.toDigitsCore]
  have h0 : n / 10 = 0 := by omega
  have h1 : n % 10 = n := by omega
  simp [h0, h1]

theorem toDigits_step (n : Nat) (h : 10 ≤ n) :
    Nat.toDigits 10 n = Nat.toDigits 10 (n / 10) ++ [Nat.digitChar (n % 10)] := by
  conv => lhs; unfold Nat.toDigits
  simp only [Nat.toDigitsCore]
  have h0 : n / 10 ≠ 0 := by omega
  simp only [h0, if_false]
  exact toDigitsCore_fuel n (n / 10) _ (by omega)

theorem digit_value_digitChar (d : Nat) (h : d < 10) :
    digit_value (Nat.digitChar d) = some d := by
  interval_cases d <;> rfl

theorem read_digits_digitChar (d : Nat) (h : d < 10) (tail : List Char) (acc cnt : Nat) :
    read_digits 10 (Nat.digitChar d :: tail) acc cnt
      = read_digits 10 tail (acc * 10 + d) (cnt + 1) := by
  simp [read_digits, digit_value_digitChar d h, h]

theorem read_digits_toDigits (n : Nat) : ∀ (tail : List Char) (acc cnt : Nat),
    ∃ k, 0 < k ∧ read_digits 10 (Nat.toDigits 10 n ++ tail) acc cnt
      = read_digits 10 tail (acc * 10 ^ k + n) (cnt + k) := by
  induction n using Nat.strong_induction_on with
  | _ n ih =>
    intro tail acc cnt
    by_cases h : n < 10
    · refine ⟨1, by omega, ?_⟩
      rw [toDigits_small n h]
      simp [read_digits_digitChar n h]
    · have h10 : 10 ≤ n := by omega
      obtain ⟨k, hk, hread⟩ :=
        ih (n / 10) (by omega) (Nat.digitChar (n % 10) :: tail) acc cnt
      refine ⟨k + 1, by omega, ?_⟩
      rw [toDigits_step n h10, List.append_assoc, List.singleton_append, hread,
        read_digits_digitChar (n % 10) (Nat.mod_lt _ (by omega))]
      have e : (acc * 10 ^ k + n / 10) * 10 + n % 10 = acc * 10 ^ (k + 1) + n := by
        rw [pow_succ]; have := Nat.div_add_mod n 10; ring_nf; omega
      rw [e, Nat.add_assoc]

theorem toDigits_head (n : Nat) : 0 < n →
    ∃ d rest, 1 ≤ d ∧ d ≤ 9 ∧ Nat.toDigits 10 n = Nat.digitChar d :: rest := by
  induction n using Nat.strong_induction_on with
  | _ n ih =>
    intro hpos
    by_cases h : n < 10
    · exact ⟨n, [], hpos, by omega, toDigits_small n h⟩
    · obtain ⟨d, rest, h1, h9, hd⟩ := ih (n / 10) (by omega) (by omega)
      refine ⟨d, rest ++ [Nat.digitChar (n % 10)], h1, h9, ?_⟩
      rw [toDigits_step n (by omega), hd]; rfl

theorem extract_uint32_of_parts (input rest : List Char) (v k : Nat) (hv : v < 4294967296)
    (hs : read_sign (input.dropWhile isspace) = (false, input))
    (hb : read_base input = (10, false, input))
    (hd : read_digits 10 input 0 0 = (v, k, rest)) (hk : 0 < k) :
    extract_uint32 input = some (⟨v, hv⟩, rest) := by
  unfold extract_uint32
  simp only [hs, hb, hd]
  have hk0 : k ≠ 0 := by omega
  simp [hk0, hv]

theorem read_sign_base_of_head (d : Nat) (rest : List Char) (h1 : 1 ≤ d) (h9 : d ≤ 9) :
    read_sign ((Nat.digitChar d :: rest).dropWhile isspace) = (false, Nat.digitChar d :: rest) ∧
    read_base (Nat.digitChar d :: rest) = (10, false, Nat.digitChar d :: rest) := by
  interval_cases d <;> exact ⟨rfl, rfl⟩

theorem extract_uint32_decimal (n : uint32_t) :
    extract_uint32 (Nat.toDigits 10 n.val) = some (n, []) := by
  by_cases h0 : n.val = 0
  · have : n = 0 := Fin.ext h0
    subst this
    rfl
  · obtain ⟨d, rest, h1, h9, hd⟩ := toDigits_head n.val (by omega)
    obtain ⟨k, hk, hread⟩ := read_digits_toDigits n.val [] 0 0
    obtain ⟨hs, hb⟩ := read_sign_base_of_head d rest h1 h9
    rw [← hd] at hs hb
    simp only [List.append_nil, Nat.zero_mul, Nat.zero_add, read_digits] at hread
    exact extract_uint32_of_parts _ [] n.val k n.isLt hs hb hread hk

theorem decode_encode_uint32 (n : uint32_t) :
    (convert.decode (convert.encode n) : Option uint32_t) = some n := by
  show (match extract_uint32 (toString n.val).toList with
    | some (rhs, rest) => if (rest.dropWhile isspace).isEmpty then some rhs else none
    | none => none) = some n
  have : (toString n.val).toList = Nat.toDigits 10 n.val := rfl
  rw [this, extract_uint32_decimal n]
  rfl

instance : Faithful uint32_t where
  encode_defined := fun _ => rfl
  decode_encode := decode_encode_uint32

end YAML

namespace yaml_configuration

variable {T : Type} [convert T]

theorem set_scalar_of_not_scalar (self : yaml_configuration) (key : String) (v : T)
    (hl : self.Loaded) (hroot : self.m_root.IsScalar = false) :
    self.set_scalar key v
      = ⟨.ok (), "", { self with m_root := self.m_root.with_child key (convert.encode v) }⟩ := by
  unfold Loaded at hl
  simp [set_scalar, hl, Node.subscript_of_not_scalar _ _ hroot]

theorem set_scalar2_of_not_scalar (self : yaml_configuration) (key subkey : String) (v : T)
    (hl : self.Loaded) (hroot : self.m_root.IsScalar = false)
    (hkey : ((self.m_root.entry key).getD Node.undefined).IsScalar = false) :
    self.set_scalar2 key subkey v
      = ⟨.ok (), "",
          { self with
            m_root := self.m_root.with_child key
              (((self.m_root.entry key).getD Node.undefined).with_child subkey
                (convert.encode v)) }⟩ := by
  unfold Loaded at hl
  simp [set_scalar2, hl, Node.subscript_of_not_scalar _ _ hroot,
    Node.subscript_of_not_scalar _ _ hkey]

theorem get_scalar_of_entry (self : yaml_configuration) (key : String) (d v : T) (n : Node)
    (hn : self.m_root.entry key = some n) (hdef : n.IsDefined = true)
    (hdec : convert.decode n = some v) (hroot : self.m_root.IsScalar = false) :
    (self.get_scalar key d).result = .ok v := by
  simp [get_scalar, Node.subscript_of_not_scalar _ _ hroot, hn, hdef, hdec]

theorem get_scalar2_of_entry (self : yaml_configuration) (key subkey : String) (d v : T)
    (c n : Node) (hc : self.m_root.entry key = some c) (hn : c.entry subkey = some n)
    (hdef : n.IsDefined = true) (hdec : convert.decode n = some v)
    (hroot : self.m_root.IsScalar = false) (hcs : c.IsScalar = false) :
    (self.get_scalar2 key subkey d).result = .ok v := by
  simp [get_scalar2, Node.subscript_of_not_scalar _ _ hroot, hc,
    Node.subscript_of_not_scalar _ _ hcs, hn, hdef, hdec]

theorem append_items_all (items : List Node) (ret vs : List T)
    (h : items.map convert.decode = vs.map some) :
    append_items items ret = (.ok (), ret ++ vs) := by
  induction items generalizing ret vs with
  | nil =>
    cases vs with
    | nil => simp [append_items]
    | cons v vs => simp at h
  | cons item rest ih =>
    cases vs with
    | nil => simp at h
    | cons v vs =>
      simp only [List.map_cons, List.cons.injEq] at h
      simp [append_items, h.1, ih (ret ++ [v]) vs h.2]

theorem set_scalar_keeps_shape [Faithful T] (self : yaml_configuration) (key : String)
    (v : T) (hl : self.Loaded) (hroot : self.m_root.IsScalar = false) :
    (self.set_scalar key v).config.Loaded ∧
    (self.set_scalar key v).config.m_root.IsScalar = false := by
  rw [set_scalar_of_not_scalar self key v hl hroot]
  exact ⟨Node.with_child_defined _ _ _ (Faithful.encode_defined v),
    Node.with_child_not_scalar _ _ _ hroot⟩

theorem set_scalar_then_get [Faithful T] (self : yaml_configuration) (key : String)
    (v d : T) (hl : self.Loaded) (hroot : self.m_root.IsScalar = false) :
    ((self.set_scalar key v).config.get_scalar key d).result = .ok v := by
  have hd := Faithful.encode_defined v
  rw [set_scalar_of_not_scalar self key v hl hroot]
  exact get_scalar_of_entry _ key d v _ (Node.entry_with_child_same _ _ _ hd) hd
    (Faithful.decode_encode v) (Node.with_child_not_scalar _ _ _ hroot)

theorem set_scalar2_keeps_shape [Faithful T] (self : yaml_configuration)
    (key subkey : String) (v : T) (hl : self.Loaded) (hroot : self.m_root.IsScalar = false)
    (hkey : self.m_root.holds_scalar key = false) :
    (self.set_scalar2 key subkey v).config.Loaded ∧
    (self.set_scalar2 key subkey v).config.m_root.IsScalar = false ∧
    (self.set_scalar2 key subkey v).config.m_root.holds_scalar key = false := by
  have hk := Node.getD_entry_not_scalar _ _ hkey
  have hd := Faithful.encode_defined v
  rw [set_scalar2_of_not_scalar self key subkey v hl hroot hk]
  have hc := Node.with_child_defined ((self.m_root.entry key).getD Node.undefined) subkey _ hd
  refine ⟨Node.with_child_defined _ _ _ hc, Node.with_child_not_scalar _ _ _ hroot, ?_⟩
  simp only [Node.holds_scalar, Node.entry_with_child_same _ _ _ hc]
  exact Node.with_child_not_scalar _ _ _ hk

theorem set_scalar2_then_get [Faithful T] (self : yaml_configuration) (key subkey : String)
    (v d : T) (hl : self.Loaded) (hroot : self.m_root.IsScalar = false)
    (hkey : self.m_root.holds_scalar key = false) :
    ((self.set_scalar2 key subkey v).config.get_scalar2 key subkey d).result = .ok v := by
  have hk := Node.getD_entry_not_scalar _ _ hkey
  have hd := Faithful.encode_defined v
  rw [set_scalar2_of_not_scalar self key subkey v hl hroot hk]
  exact get_scalar2_of_entry _ key subkey d v _ _
    (Node.entry_with_child_same _ _ _ (Node.with_child_defined _ _ _ hd))
    (Node.entry_with_child_same _ _ _ hd) hd (Faithful.decode_encode v)
    (Node.with_child_not_scalar _ _ _ hroot) (Node.with_child_not_scalar _ _ _ hk)

end yaml_configuration

/-! ## Lemmas on what reads and writes leave in place -/

namespace YAML.Node

theorem equals_ne (kn : Node) (k k' : String) (h : k ≠ k') (hk : kn.equals k = true) :
    kn.equals k' = false := by
  cases kn <;> simp_all [equals]

theorem find_value_assign_value_ne (es : List (Node × Node)) (k k' : String) (x : Node)
    (h : k ≠ k') : find_value (assign_value es k x) k' = find_value es k' := by
  induction es with
  | nil => simp [assign_value, find_value, equals, h]
  | cons p rest ih =>
    obtain ⟨kn, v⟩ := p
    by_cases hk : kn.equals k = true
    · simp [assign_value, find_value, hk, equals_ne kn k k' h hk]
    · simp [assign_value, find_value, hk, ih]

theorem subscript_after_subscript (n : Node) (key : String) :
    n.after_subscript.subscript key = n.subscript key := by
  cases n <;> rfl

theorem entry_with_child_ne (n : Node) (k k' : String) (x : Node) (h : k ≠ k') :
    (n.with_child k x).entry k' = n.entry k' := by
  unfold with_child
  split
  · simp [entry, map_entries, find_value_assign_value_ne _ _ _ _ h]
  · cases n <;> rfl

theorem subscript_with_child_ne (n : Node) (k k' : String) (x : Node) (h : k ≠ k')
    (hn : n.IsScalar = false) : (n.with_child k x).subscript k' = n.subscript k' := by
  rw [subscript_of_not_scalar _ _ (with_child_not_scalar n k x hn),
    subscript_of_not_scalar _ _ hn, entry_with_child_ne n k k' x h]

theorem subscript2_congr (a b : Node) (key subkey : String)
    (h : a.subscript key = b.subscript key) :
    a.subscript2 key subkey = b.subscript2 key subkey := by
  unfold subscript2; rw [h]

/-- The node at `key` after the child took the content `child`. -/
theorem subscript_with_child_same (n : Node) (key : String) (child : Node)
    (hn : n.IsScalar = false) :
    (n.with_child key child).subscript key
      = if child.IsDefined then .ok child else n.subscript key := by
  by_cases hd : child.IsDefined = true
  · rw [subscript_of_not_scalar _ _ (with_child_not_scalar n key child hn),
      entry_with_child_same n key child hd]
    simp [hd]
  · have hw : n.with_child key child = n.after_subscript := by simp [with_child, hd]
    rw [hw, subscript_after_subscript]
    simp [hd]

end YAML.Node

namespace yaml_configuration

variable {T : Type} [convert T]

/-- What a scalar read makes of the node that `operator[]` gave it. -/
theorem get_scalar_observed (self : yaml_configuration) (key : String) (d : T) :
    (self.get_scalar key d).observed
      = match self.m_root.subscript key with
        | .error e => (.error e, "")
        | .ok node =>
          if node.IsDefined then
            match (convert.decode node : Option T) with
            | some v => (.ok v, "")
            | none => (.error .BadConversion, self.wrong_type_message key)
          else (.ok d, "") := by
  unfold get_scalar Outcome.observed
  cases self.m_root.subscript key with
  | error e => rfl
  | ok node =>
    by_cases hd : node.IsDefined = true
    · cases hv : (convert.decode node : Option T) <;> simp [hd, hv]
    · simp [hd]

theorem get_scalar2_observed (self : yaml_configuration) (key subkey : String) (d : T) :
    (self.get_scalar2 key subkey d).observed
      = match self.m_root.subscript2 key subkey with
        | .error e => (.error e, "")
        | .ok node =>
          if node.IsDefined then
            match (convert.decode node : Option T) with
            | some v => (.ok v, "")
            | none => (.error .BadConversion, self.wrong_type_message key)
          else (.ok d, "") := by
  unfold get_scalar2 Outcome.observed Node.subscript2
  cases self.m_root.subscript key with
  | error e => rfl
  | ok child =>
    dsimp only
    cases child.subscript subkey with
    | error e => rfl
    | ok node =>
      by_cases hd : node.IsDefined = true
      · cases hv : (convert.decode node : Option T) <;> simp [hd, hv]
      · simp [hd]

theorem get_sequence_observed (self : yaml_configuration) (ret : List T) (name : String) :
    (self.get_sequence ret name).observed
      = match self.m_root.subscript name with
        | .error e => (.error e, "", ret)
        | .ok child_node =>
          if child_node.IsDefined then
            if child_node.IsSequence then
              ((append_items child_node.items ret).1, "", (append_items child_node.items ret).2)
            else if child_node.IsScalar then
              match (convert.decode child_node : Option T) with
              | some v => (.ok (), "", ret ++ [v])
              | none => (.error .BadConversion, "", ret)
            else (.ok (), "", ret)
          else (.ok (), "", ret) := by
  unfold get_sequence SequenceOutcome.observed
  cases self.m_root.subscript name with
  | error e => rfl
  | ok node =>
    by_cases hd : node.IsDefined = true
    · by_cases hs : node.IsSequence = true
      · simp [hd, hs]
      · by_cases hc : node.IsScalar = true
        · cases hv : (convert.decode node : Option T) <;> simp [hd, hs, hc, hv]
        · simp [hd, hs, hc]
    · simp [hd]

/-- Two objects for the same file whose roots give the same node at `key` answer the
reads at `key` alike. -/
theorem answers_congr (a b : yaml_configuration) (key subkey : String) (d : T) (ret : List T)
    (hp : a.m_path = b.m_path) (h : a.m_root.subscript key = b.m_root.subscript key) :
    a.answers key subkey d ret = b.answers key subkey d ret := by
  unfold answers
  rw [get_scalar_observed, get_scalar2_observed, get_sequence_observed,
    get_scalar_observed, get_scalar2_observed, get_sequence_observed,
    Node.subscript2_congr _ _ key subkey h, h]
  simp only [wrong_type_message, hp]

theorem get_scalar2_observed_congr (a b : yaml_configuration) (key subkey : String) (d : T)
    (hp : a.m_path = b.m_path)
    (h : a.m_root.subscript2 key subkey = b.m_root.subscript2 key subkey) :
    (a.get_scalar2 key subkey d).observed = (b.get_scalar2 key subkey d).observed := by
  rw [get_scalar2_observed, get_scalar2_observed, h]
  simp only [wrong_type_message, hp]

end yaml_configuration

namespace yaml_configuration

variable {T : Type} [convert T]

theorem set_scalar_frame (self : yaml_configuration) (k k' : String) (v : T) (h : k ≠ k') :
    (self.set_scalar k v).config.m_path = self.m_path ∧
    (self.set_scalar k v).config.m_root.subscript k' = self.m_root.subscript k' := by
  unfold set_scalar
  by_cases hd : self.m_root.IsDefined = true
  · cases hs : self.m_root.IsScalar with
    | true => simp [hd, Node.subscript_of_scalar _ _ hs]
    | false =>
      simp [hd, Node.subscript_of_not_scalar _ k hs, Node.subscript_with_child_ne _ _ _ _ h hs]
  · simp [hd]

theorem set_scalar2_frame (self : yaml_configuration) (k s k' : String) (v : T)
    (h : k ≠ k') :
    (self.set_scalar2 k s v).config.m_path = self.m_path ∧
    (self.set_scalar2 k s v).config.m_root.subscript k' = self.m_root.subscript k' := by
  unfold set_scalar2
  by_cases hd : self.m_root.IsDefined = true
  · cases hs : self.m_root.IsScalar with
    | true => simp [hd, Node.subscript_of_scalar _ _ hs]
    | false =>
      cases hc : ((self.m_root.entry k).getD Node.undefined).IsScalar with
      | true =>
        simp [hd, Node.subscript_of_not_scalar _ k hs, Node.subscript_of_scalar _ _ hc,
          Node.subscript_after_subscript]
      | false =>
        simp [hd, Node.subscript_of_not_scalar _ k hs, Node.subscript_of_not_scalar _ s hc,
          Node.subscript_with_child_ne _ _ _ _ h hs]
  · simp [hd]

end yaml_configuration

namespace YAML.Node

theorem after_subscript_of_kept (n : Node) (h1 : n.IsSequence = false)
    (h2 : n.IsNull = false) : n.after_subscript = n := by
  cases n <;> simp_all [after_subscript, IsSequence, IsNull, map_entries]

/-- Writing below `key` leaves what `node[key][subkey']` references, for a subkey the
write does not name. -/
theorem subscript2_with_child_with_child (n : Node) (key s s' : String) (x : Node)
    (hn : n.IsScalar = false) (hc : ((n.entry key).getD undefined).IsScalar = false)
    (h : s ≠ s') :
    (n.with_child key (((n.entry key).getD undefined).with_child s x)).subscript2 key s'
      = n.subscript2 key s' := by
  unfold subscript2
  rw [subscript_with_child_same n key _ hn, subscript_of_not_scalar n key hn]
  by_cases hd : (((n.entry key).getD undefined).with_child s x).IsDefined = true
  · simp only [hd, if_true]
    exact subscript_with_child_ne _ s s' x h hc
  · simp [hd]

/-- Reading below `key` leaves what `node[key][subkey']` references. -/
theorem subscript2_with_child_after (n : Node) (key s' : String)
    (hn : n.IsScalar = false) :
    (n.with_child key ((n.entry key).getD undefined).after_subscript).subscript2 key s'
      = n.subscript2 key s' := by
  unfold subscript2
  rw [subscript_with_child_same n key _ hn, subscript_of_not_scalar n key hn]
  by_cases hd : ((n.entry key).getD undefined).after_subscript.IsDefined = true
  · simp only [hd, if_true]
    exact subscript_after_subscript _ s'
  · simp [hd]

end YAML.Node

namespace yaml_configuration

variable {T : Type} [convert T]

theorem set_scalar2_frame_sibling (self : yaml_configuration) (k s s' : String) (v : T)
    (h : s ≠ s') :
    (self.set_scalar2 k s v).config.m_path = self.m_path ∧
    (self.set_scalar2 k s v).config.m_root.subscript2 k s'
      = self.m_root.subscript2 k s' := by
  unfold set_scalar2
  by_cases hd : self.m_root.IsDefined = true
  · cases hs : self.m_root.IsScalar with
    | true => simp [hd, Node.subscript_of_scalar _ _ hs]
    | false =>
      cases hc : ((self.m_root.entry k).getD Node.undefined).IsScalar with
      | true =>
        simp [hd, Node.subscript_of_not_scalar _ k hs, Node.subscript_of_scalar _ _ hc,
          Node.subscript2_congr _ _ k s' (Node.subscript_after_subscript self.m_root k)]
      | false =>
        simp [hd, Node.subscript_of_not_scalar _ k hs, Node.subscript_of_not_scalar _ s hc,
          Node.subscript2_with_child_with_child _ k s s' _ hs hc h]
  · simp [hd]

theorem get_scalar_frame (self : yaml_configuration) (key k' : String) (d : T) :
    (self.get_scalar key d).config.m_path = self.m_path ∧
    (self.get_scalar key d).config.m_root.subscript k' = self.m_root.subscript k' := by
  unfold get_scalar
  cases self.m_root.subscript key with
  | error e => exact ⟨rfl, rfl⟩
  | ok node =>
    dsimp only
    split
    · split <;> exact ⟨rfl, Node.subscript_after_subscript _ _⟩
    · exact ⟨rfl, Node.subscript_after_subscript _ _⟩

theorem get_sequence_frame (self : yaml_configuration) (ret : List T) (name k' : String) :
    (self.get_sequence ret name).config.m_path = self.m_path ∧
    (self.get_sequence ret name).config.m_root.subscript k' = self.m_root.subscript k' := by
  unfold get_sequence
  cases self.m_root.subscript name with
  | error e => exact ⟨rfl, rfl⟩
  | ok node =>
    dsimp only
    split
    · split
      · exact ⟨rfl, Node.subscript_after_subscript _ _⟩
      · split
        · split <;> exact ⟨rfl, Node.subscript_after_subscript _ _⟩
        · exact ⟨rfl, Node.subscript_after_subscript _ _⟩
    · exact ⟨rfl, Node.subscript_after_subscript _ _⟩

/-- The object after a two-level read: untouched when the root is a scalar, and otherwise
the root with the node at `key` in the state `operator[]` left it in. -/
theorem get_scalar2_config (self : yaml_configuration) (key subkey : String) (d : T) :
    (self.get_scalar2 key subkey d).config.m_path = self.m_path ∧
    ((self.get_scalar2 key subkey d).config.m_root = self.m_root ∨
     (self.m_root.IsScalar = false ∧
      ((self.get_scalar2 key subkey d).config.m_root = self.m_root.after_subscript ∨
       (self.get_scalar2 key subkey d).config.m_root
         = self.m_root.with_child key
             ((self.m_root.entry key).getD Node.undefined).after_subscript))) := by
  unfold get_scalar2
  cases hs : self.m_root.IsScalar with
  | true => simp [Node.subscript_of_scalar _ _ hs]
  | false =>
    rw [Node.subscript_of_not_scalar _ key hs]
    dsimp only
    cases ((self.m_root.entry key).getD Node.undefined).subscript subkey with
    | error e => exact ⟨rfl, Or.inr ⟨rfl, Or.inl rfl⟩⟩
    | ok node =>
      dsimp only
      split
      · split <;> exact ⟨rfl, Or.inr ⟨rfl, Or.inr rfl⟩⟩
      · exact ⟨rfl, Or.inr ⟨rfl, Or.inr rfl⟩⟩

theorem get_scalar2_frame_other (self : yaml_configuration) (key subkey k' : String) (d : T)
    (h : key ≠ k') :
    (self.get_scalar2 key subkey d).config.m_root.subscript k' = self.m_root.subscript k' := by
  rcases (get_scalar2_config self key subkey d).2 with e | ⟨hs, e | e⟩
  · rw [e]
  · rw [e, Node.subscript_after_subscript]
  · rw [e, Node.subscript_with_child_ne _ _ _ _ h hs]

theorem get_scalar2_frame_below (self : yaml_configuration) (key subkey k' s' : String)
    (d : T) :
    (self.get_scalar2 key subkey d).config.m_root.subscript2 k' s'
      = self.m_root.subscript2 k' s' := by
  by_cases h : key = k'
  · subst h
    rcases (get_scalar2_config self key subkey d).2 with e | ⟨hs, e | e⟩
    · rw [e]
    · rw [e, Node.subscript2_congr _ _ key s' (Node.subscript_after_subscript _ _)]
    · rw [e, Node.subscript2_with_child_after _ _ _ hs]
  · exact Node.subscript2_congr _ _ k' s' (get_scalar2_frame_other self key subkey k' d h)

theorem get_scalar2_frame_kept (self : yaml_configuration) (key subkey k' : String) (d : T)
    (h1 : ((self.m_root.entry key).getD Node.undefined).IsSequence = false)
    (h2 : ((self.m_root.entry key).getD Node.undefined).IsNull = false) :
    (self.get_scalar2 key subkey d).config.m_root.subscript k' = self.m_root.subscript k' := by
  by_cases h : key = k'
  · subst h
    rcases (get_scalar2_config self key subkey d).2 with e | ⟨hs, e | e⟩
    · rw [e]
    · rw [e, Node.subscript_after_subscript]
    · rw [e, Node.after_subscript_of_kept _ h1 h2, Node.subscript_with_child_same _ _ _ hs,
        Node.subscript_of_not_scalar _ key hs]
      split
      · rfl
      · rfl
  · exact get_scalar2_frame_other self key subkey k' d h

end yaml_configuration

namespace yaml_configuration

variable {T : Type} [convert T]

theorem append_items_stops (good : List Node) (bad : Node) (rest : List Node)
    (ret vs : List T) (hgood : good.map convert.decode = vs.map some)
    (hbad : (convert.decode bad : Option T) = none) :
    append_items (good ++ bad :: rest) ret = (.error .BadConversion, ret ++ vs) := by
  induction good generalizing ret vs with
  | nil =>
    cases vs with
    | nil => simp [append_items, hbad]
    | cons v vs => simp at hgood
  | cons item more ih =>
    cases vs with
    | nil => simp at hgood
    | cons v vs =>
      simp only [List.map_cons, List.cons.injEq] at hgood
      simp [append_items, hgood.1, ih (ret ++ [v]) vs hgood.2]

theorem append_items_fails (items : List Node) (ret : List T)
    (h : ∃ item ∈ items, (convert.decode item : Option T) = none) :
    (append_items items ret).1 = .error .BadConversion := by
  induction items generalizing ret with
  | nil => simp at h
  | cons item rest ih =>
    cases hv : (convert.decode item : Option T) with
    | none => simp [append_items, hv]
    | some v =>
      obtain ⟨bad, hmem, hbad⟩ := h
      have hrest : ∃ item ∈ rest, (convert.decode item : Option T) = none := by
        rcases List.mem_cons.mp hmem with e | e
        · subst e; rw [hv] at hbad; cases hbad
        · exact ⟨bad, e, hbad⟩
      simp [append_items, hv, ih (ret ++ [v]) hrest]

end yaml_configuration

namespace falco_configuration

theorem split_first_none (sep : Char) (text : List Char) (h : sep ∉ text) :
    split_first sep text = none := by
  induction text with
  | nil => rfl
  | cons c cs ih =>
    simp only [List.mem_cons, not_or] at h
    have hc : c ≠ sep := fun e => h.1 e.symm
    simp [split_first, hc, ih h.2]

theorem split_first_append (sep : Char) (before after : List Char) (h : sep ∉ before) :
    split_first sep (before ++ sep :: after) = some (before, after) := by
  induction before with
  | nil => simp [split_first]
  | cons c cs ih =>
    simp only [List.mem_cons, not_or] at h
    have hc : c ≠ sep := fun e => h.1 e.symm
    simp [split_first, hc, ih h.2]

theorem split_first_some (sep : Char) (text before after : List Char)
    (h : split_first sep text = some (before, after)) :
    text = before ++ sep :: after ∧ sep ∉ before := by
  induction text generalizing before with
  | nil => simp [split_first] at h
  | cons c cs ih =>
    by_cases hc : c = sep
    · simp [split_first, hc] at h
      obtain ⟨h1, h2⟩ := h
      subst h1; subst h2
      simp [hc]
    · cases hr : split_first sep cs with
      | none => simp [split_first, hc, hr] at h
      | some p =>
        obtain ⟨b, a⟩ := p
        simp [split_first, hc, hr] at h
        obtain ⟨h1, h2⟩ := h
        subst h1; subst h2
        obtain ⟨e, hn⟩ := ih b hr
        refine ⟨by rw [e]; rfl, ?_⟩
        simp only [List.mem_cons, not_or]
        exact ⟨fun e' => hc e'.symm, hn⟩

theorem split_first_two (sep : Char) (text : List Char) (h : 2 ≤ text.count sep) :
    ∃ before after, split_first sep text = some (before, after) ∧ sep ∈ after := by
  induction text with
  | nil => simp at h
  | cons c cs ih =>
    by_cases hc : c = sep
    · refine ⟨[], cs, by simp [split_first, hc], ?_⟩
      subst hc
      rw [List.count_cons_self] at h
      exact List.count_pos_iff.mp (by omega)
    · rw [List.count_cons_of_ne (fun e => hc e.symm)] at h
      obtain ⟨b, a, hs, hm⟩ := ih h
      exact ⟨c :: b, a, by simp [split_first, hc, hs], hm⟩

end falco_configuration

/-! ## Lemmas on documents without aliases among the documents with aliases -/

namespace YAML.Shared

theorem lift_items_eq (xs : List YAML.Node) : lift_items xs = xs.map lift := by
  induction xs with
  | nil => rfl
  | cons x rest ih => simp [lift_items, ih]

theorem lift_entries_eq (es : List (YAML.Node × YAML.Node)) :
    lift_entries es = es.map (fun p => (lift p.1, lift p.2)) := by
  induction es with
  | nil => rfl
  | cons p rest ih =>
    obtain ⟨k, v⟩ := p
    simp [lift_entries, ih]

mutual
theorem resolve_with_lift (shared : Nat → YAML.Node) :
    ∀ t : YAML.Node, resolve_with shared (lift t) = t
  | .undefined => rfl
  | .null => rfl
  | .scalar _ => rfl
  | .sequence items => by
    simp only [lift, resolve_with, resolve_items_lift shared items]
  | .map entries => by
    simp only [lift, resolve_with, resolve_entries_lift shared entries]
theorem resolve_items_lift (shared : Nat → YAML.Node) :
    ∀ items : List YAML.Node, resolve_items shared (lift_items items) = items
  | [] => rfl
  | item :: rest => by
    simp only [lift_items, resolve_items, resolve_with_lift shared item,
      resolve_items_lift shared rest]
theorem resolve_entries_lift (shared : Nat → YAML.Node) :
    ∀ entries : List (YAML.Node × YAML.Node),
      resolve_entries shared (lift_entries entries) = entries
  | [] => rfl
  | (k, v) :: rest => by
    simp only [lift_entries, resolve_entries, resolve_with_lift shared k,
      resolve_with_lift shared v, resolve_entries_lift shared rest]
end

mutual
theorem lift_resolve_with (shared : Nat → YAML.Node) :
    ∀ n : Node, alias_free n = true → lift (resolve_with shared n) = n
  | .undefined, _ => rfl
  | .null, _ => rfl
  | .scalar _, _ => rfl
  | .sequence items, h => by
    simp only [alias_free] at h
    simp only [resolve_with, lift, lift_resolve_items shared items h]
  | .map entries, h => by
    simp only [alias_free] at h
    simp only [resolve_with, lift, lift_resolve_entries shared entries h]
  | .anchored _, h => by simp [alias_free] at h
theorem lift_resolve_items (shared : Nat → YAML.Node) :
    ∀ items : List Node, alias_free_items items = true →
      lift_items (resolve_items shared items) = items
  | [], _ => rfl
  | item :: rest, h => by
    simp only [alias_free_items, Bool.and_eq_true] at h
    simp only [resolve_items, lift_items, lift_resolve_with shared item h.1,
      lift_resolve_items shared rest h.2]
theorem lift_resolve_entries (shared : Nat → YAML.Node) :
    ∀ entries : List (Node × Node), alias_free_entries entries = true →
      lift_entries (resolve_entries shared entries) = entries
  | [], _ => rfl
  | (k, v) :: rest, h => by
    simp only [alias_free_entries, Bool.and_eq_true] at h
    simp only [resolve_entries, lift_entries, lift_resolve_with shared k h.1.1,
      lift_resolve_with shared v h.1.2, lift_resolve_entries shared rest h.2]
end

/-- A place without an alias at it or below it is the lift of a document without
aliases. -/
theorem exists_lift_of_alias_free (n : Node) (h : alias_free n = true) :
    ∃ t : YAML.Node, n = lift t :=
  ⟨resolve_with (fun _ => .undefined) n, (lift_resolve_with _ n h).symm⟩

theorem resolve_lift (anchors : List Node) (t : YAML.Node) : resolve anchors (lift t) = t :=
  resolve_with_lift _ t

namespace Node

theorem content_lift (anchors : List Node) (t : YAML.Node) :
    content anchors (lift t) = lift t := by
  cases t <;> rfl

theorem put_lift (anchors : List Node) (t : YAML.Node) (n : Node) :
    put anchors (lift t) n = (n, anchors) := by
  cases t <;> rfl

theorem IsDefined_lift (t : YAML.Node) : (lift t).IsDefined = t.IsDefined := by
  cases t <;> rfl

theorem IsScalar_lift (t : YAML.Node) : (lift t).IsScalar = t.IsScalar := by
  cases t <;> rfl

theorem equals_lift (anchors : List Node) (k : YAML.Node) (key : String) :
    equals anchors (lift k) key = k.equals key := by
  cases k <;> rfl

theorem find_value_lift (anchors : List Node) (es : List (YAML.Node × YAML.Node))
    (key : String) :
    find_value anchors (lift_entries es) key = (YAML.Node.find_value es key).map lift := by
  induction es with
  | nil => rfl
  | cons p rest ih =>
    obtain ⟨k, v⟩ := p
    simp only [lift_entries, find_value, YAML.Node.find_value, equals_lift, ih]
    split <;> rfl

theorem assign_value_lift (anchors : List Node) (es : List (YAML.Node × YAML.Node))
    (key : String) (x : YAML.Node) :
    assign_value anchors (lift_entries es) key (lift x)
      = lift_entries (YAML.Node.assign_value es key x) := by
  induction es with
  | nil => rfl
  | cons p rest ih =>
    obtain ⟨k, v⟩ := p
    simp only [lift_entries, assign_value, YAML.Node.assign_value, equals_lift, ih]
    split <;> simp [lift_entries]

theorem convert_sequence_to_map_lift (xs : List YAML.Node) :
    convert_sequence_to_map (lift_items xs)
      = lift_entries (YAML.Node.convert_sequence_to_map xs) := by
  simp only [convert_sequence_to_map, YAML.Node.convert_sequence_to_map, lift_items_eq,
    lift_entries_eq, List.map_map]
  rw [List.enum_map, List.map_map]
  rfl

theorem map_entries_lift (t : YAML.Node) :
    map_entries (lift t) = lift_entries t.map_entries := by
  cases t with
  | sequence xs => exact convert_sequence_to_map_lift xs
  | _ => rfl

theorem entry_lift (anchors : List Node) (t : YAML.Node) (key : String) :
    entry anchors (lift t) key = (t.entry key).map lift := by
  simp only [entry, YAML.Node.entry, map_entries_lift, find_value_lift]

theorem subscript_lift (anchors : List Node) (t : YAML.Node) (key : String) :
    subscript anchors (lift t) key
      = match t.subscript key with
        | .error e => .error e
        | .ok child => .ok (lift child) := by
  simp only [subscript, YAML.Node.subscript, IsScalar_lift, entry_lift]
  split
  · rfl
  · cases t.entry key <;> rfl

theorem after_subscript_lift (t : YAML.Node) :
    after_subscript (lift t) = lift t.after_subscript := by
  cases t with
  | undefined => rfl
  | null => rfl
  | scalar s => rfl
  | sequence xs =>
    simp only [lift, after_subscript, YAML.Node.after_subscript, map_entries,
      YAML.Node.map_entries, convert_sequence_to_map_lift]
  | map es => rfl

theorem hold_lift (anchors : List Node) (t : YAML.Node) (key : String) (c : YAML.Node) :
    hold anchors (lift t) key (lift c) = (lift (t.with_child key c), anchors) := by
  have h : hold anchors (lift t) key (lift c)
      = if (lift c).IsDefined then
          put anchors (lift t)
            (map (assign_value anchors (content anchors (lift t)).map_entries key (lift c)))
        else put anchors (lift t) (content anchors (lift t)).after_subscript := by
    cases c <;> rfl
  rw [h, content_lift, put_lift, put_lift, IsDefined_lift, map_entries_lift,
    assign_value_lift, after_subscript_lift]
  unfold YAML.Node.with_child
  split <;> rfl

theorem with_child_lift (anchors : List Node) (t : YAML.Node) (key : String)
    (child x : YAML.Node) :
    with_child anchors (lift t) key (lift child) (lift x)
      = (lift (t.with_child key x), anchors) := by
  have h : with_child anchors (lift t) key (lift child) (lift x)
      = hold anchors (lift t) key (lift x) := by
    cases child <;> rfl
  rw [h, hold_lift]

end Node

end YAML.Shared

namespace yaml_configuration

variable {T : Type} [convert T]

theorem aliased_get_scalar (self : yaml_configuration) (anchors : List Shared.Node)
    (key : String) (d : T) :
    (self.aliased anchors).get_scalar key d
      = ⟨(self.get_scalar key d).result, (self.get_scalar key d).cerr,
          (self.get_scalar key d).config.aliased anchors⟩ := by
  unfold WithAliases.yaml_configuration.get_scalar get_scalar
  simp only [aliased, Shared.Node.content_lift, Shared.Node.subscript_lift, Shared.Node.put_lift, Shared.Node.after_subscript_lift]
  cases self.m_root.subscript key with
  | error e => rfl
  | ok child =>
    simp only [Shared.resolve_lift]
    split
    · split <;> rfl
    · rfl

theorem aliased_set_scalar (self : yaml_configuration) (anchors : List Shared.Node)
    (key : String) (v : T) :
    (self.aliased anchors).set_scalar key v
      = ⟨(self.set_scalar key v).result, (self.set_scalar key v).cerr,
          (self.set_scalar key v).config.aliased anchors⟩ := by
  unfold WithAliases.yaml_configuration.set_scalar set_scalar
  simp only [aliased, Shared.Node.content_lift, Shared.Node.subscript_lift, Shared.Node.IsDefined_lift]
  split
  · cases self.m_root.subscript key with
    | error e => rfl
    | ok child => simp only [Shared.Node.with_child_lift]
  · rfl

theorem aliased_get_scalar2 (self : yaml_configuration) (anchors : List Shared.Node)
    (key subkey : String) (d : T) :
    (self.aliased anchors).get_scalar2 key subkey d
      = ⟨(self.get_scalar2 key subkey d).result, (self.get_scalar2 key subkey d).cerr,
          (self.get_scalar2 key subkey d).config.aliased anchors⟩ := by
  unfold WithAliases.yaml_configuration.get_scalar2 get_scalar2
  simp only [aliased, Shared.Node.content_lift, Shared.Node.subscript_lift]
  cases self.m_root.subscript key with
  | error e => rfl
  | ok child =>
    simp only [Shared.Node.content_lift, Shared.Node.subscript_lift]
    cases child.subscript subkey with
    | error e => simp only [Shared.Node.put_lift, Shared.Node.after_subscript_lift]
    | ok node =>
      simp only [Shared.Node.put_lift, Shared.Node.after_subscript_lift, Shared.Node.hold_lift, Shared.resolve_lift]
      split
      · split <;> rfl
      · rfl

theorem aliased_set_scalar2 (self : yaml_configuration) (anchors : List Shared.Node)
    (key subkey : String) (v : T) :
    (self.aliased anchors).set_scalar2 key subkey v
      = ⟨(self.set_scalar2 key subkey v).result, (self.set_scalar2 key subkey v).cerr,
          (self.set_scalar2 key subkey v).config.aliased anchors⟩ := by
  unfold WithAliases.yaml_configuration.set_scalar2 set_scalar2
  simp only [aliased, Shared.Node.content_lift, Shared.Node.subscript_lift, Shared.Node.IsDefined_lift]
  split
  · cases self.m_root.subscript key with
    | error e => rfl
    | ok child =>
      simp only [Shared.Node.content_lift, Shared.Node.subscript_lift]
      cases child.subscript subkey with
      | error e => simp only [Shared.Node.put_lift, Shared.Node.after_subscript_lift]
      | ok node => simp only [Shared.Node.with_child_lift, Shared.Node.hold_lift]
  · rfl

theorem aliased_get_sequence (self : yaml_configuration) (anchors : List Shared.Node)
    (ret : List T) (name : String) :
    (self.aliased anchors).get_sequence ret name
      = ⟨⟨(self.get_sequence ret name).result, (self.get_sequence ret name).cerr,
            (self.get_sequence ret name).config.aliased anchors⟩,
          (self.get_sequence ret name).ret⟩ := by
  unfold WithAliases.yaml_configuration.get_sequence get_sequence
  simp only [aliased, Shared.Node.content_lift, Shared.Node.subscript_lift, Shared.Node.put_lift, Shared.Node.after_subscript_lift]
  cases self.m_root.subscript name with
  | error e => rfl
  | ok child =>
    simp only [Shared.resolve_lift]
    split
    · split
      · rfl
      · split
        · split <;> rfl
        · rfl
    · rfl

theorem aliased_get_scalar2_observed (self : yaml_configuration)
    (anchors : List Shared.Node) (key subkey : String) (d : T) :
    ((self.aliased anchors).get_scalar2 key subkey d).observed
      = (self.get_scalar2 key subkey d).observed := by
  rw [aliased_get_scalar2]; rfl

theorem aliased_get_scalar_config (self : yaml_configuration) (anchors : List Shared.Node)
    (key : String) (d : T) :
    ((self.aliased anchors).get_scalar key d).config
      = (self.get_scalar key d).config.aliased anchors := by
  rw [aliased_get_scalar]

theorem aliased_get_scalar2_config (self : yaml_configuration) (anchors : List Shared.Node)
    (key subkey : String) (d : T) :
    ((self.aliased anchors).get_scalar2 key subkey d).config
      = (self.get_scalar2 key subkey d).config.aliased anchors := by
  rw [aliased_get_scalar2]

theorem aliased_get_sequence_config (self : yaml_configuration) (anchors : List Shared.Node)
    (ret : List T) (name : String) :
    ((self.aliased anchors).get_sequence ret name).config
      = (self.get_sequence ret name).config.aliased anchors := by
  rw [aliased_get_sequence]

theorem aliased_set_scalar_config (self : yaml_configuration) (anchors : List Shared.Node)
    (key : String) (v : T) :
    ((self.aliased anchors).set_scalar key v).config
      = (self.set_scalar key v).config.aliased anchors := by
  rw [aliased_set_scalar]

theorem aliased_set_scalar2_config (self : yaml_configuration) (anchors : List Shared.Node)
    (key subkey : String) (v : T) :
    ((self.aliased anchors).set_scalar2 key subkey v).config
      = (self.set_scalar2 key subkey v).config.aliased anchors := by
  rw [aliased_set_scalar2]

theorem aliased_answers {U : Type} [convert U] (self : yaml_configuration)
    (anchors : List Shared.Node) (key subkey : String) (d : U) (ret : List U) :
    (self.aliased anchors).answers key subkey d ret = self.answers key subkey d ret := by
  unfold WithAliases.yaml_configuration.answers answers
  rw [aliased_get_scalar, aliased_get_scalar2, aliased_get_sequence]
  rfl

theorem aliased_value_at (self : yaml_configuration) (anchors : List Shared.Node)
    (key : String) :
    (self.aliased anchors).value_at key = (self.m_root.entry key).getD .undefined := by
  unfold WithAliases.yaml_configuration.value_at
  simp only [aliased, Shared.Node.content_lift, Shared.Node.entry_lift]
  cases self.m_root.entry key with
  | none => rfl
  | some c => exact Shared.resolve_lift anchors c

/-- An object whose document holds no alias is the image of an object of the model for
documents without aliases. -/
theorem exists_aliased (self : WithAliases.yaml_configuration)
    (h : Shared.alias_free self.m_root = true) :
    ∃ (doc : yaml_configuration) (anchors : List Shared.Node), self = doc.aliased anchors := by
  obtain ⟨t, ht⟩ := Shared.exists_lift_of_alias_free self.m_root h
  refine ⟨⟨self.m_path, t⟩, self.anchors, ?_⟩
  cases self
  simp only [aliased] at *
  simp [ht]

/-- Reads at another key after a one-level write, in a document without aliases. -/
theorem set_scalar_answers {U : Type} [convert U] (self : yaml_configuration)
    (k k' subkey : String) (v : T) (d : U) (ret : List U) (h : k ≠ k') :
    (self.set_scalar k v).config.answers k' subkey d ret = self.answers k' subkey d ret := by
  obtain ⟨hp, hr⟩ := set_scalar_frame self k k' v h
  exact answers_congr _ _ k' subkey d ret hp hr

/-- Reads at another key after a two-level write, in a document without aliases. -/
theorem set_scalar2_answers {U : Type} [convert U] (self : yaml_configuration)
    (k s k' subkey : String) (v : T) (d : U) (ret : List U) (h : k ≠ k') :
    (self.set_scalar2 k s v).config.answers k' subkey d ret = self.answers k' subkey d ret := by
  obtain ⟨hp, hr⟩ := set_scalar2_frame self k s k' v h
  exact answers_congr _ _ k' subkey d ret hp hr

/-- The read of another subkey after a two-level write, in a document without aliases. -/
theorem set_scalar2_sibling {U : Type} [convert U] (self : yaml_configuration)
    (k s s' : String) (v : T) (d : U) (h : s ≠ s') :
    ((self.set_scalar2 k s v).config.get_scalar2 k s' d).observed
      = (self.get_scalar2 k s' d).observed := by
  obtain ⟨hp, hr⟩ := set_scalar2_frame_sibling self k s s' v h
  exact get_scalar2_observed_congr _ _ k s' d hp hr

/-- Reads after a one-level read, in a document without aliases. -/
theorem get_scalar_answers {U : Type} [convert U] (self : yaml_configuration)
    (key k s : String) (d : T) (d' : U) (ret : List U) :
    (self.get_scalar key d).config.answers k s d' ret = self.answers k s d' ret := by
  obtain ⟨hp, hr⟩ := get_scalar_frame self key k d
  exact answers_congr _ _ k s d' ret hp hr

/-- Reads after a sequence read, in a document without aliases. -/
theorem get_sequence_answers {U : Type} [convert U] (self : yaml_configuration)
    (name k s : String) (first : List T) (d' : U) (ret : List U) :
    (self.get_sequence first name).config.answers k s d' ret = self.answers k s d' ret := by
  obtain ⟨hp, hr⟩ := get_sequence_frame self first name k
  exact answers_congr _ _ k s d' ret hp hr

/-- Two-level reads after a two-level read, in a document without aliases. -/
theorem get_scalar2_below {U : Type} [convert U] (self : yaml_configuration)
    (key subkey k s : String) (d : T) (d' : U) :
    ((self.get_scalar2 key subkey d).config.get_scalar2 k s d').observed
      = (self.get_scalar2 k s d').observed :=
  get_scalar2_observed_congr _ _ k s d'
    (get_scalar2_config self key subkey d).1 (get_scalar2_frame_below self key subkey k s d)

/-- Reads after a two-level read, in a document without aliases: at another key, or
when the node at the key is neither a sequence nor a null. -/
theorem get_scalar2_answers {U : Type} [convert U] (self : yaml_configuration)
    (key subkey k s : String) (d : T) (d' : U) (ret : List U)
    (h : k ≠ key ∨
      (((self.m_root.entry key).getD .undefined).IsSequence = false ∧
       ((self.m_root.entry key).getD .undefined).IsNull = false)) :
    (self.get_scalar2 key subkey d).config.answers k s d' ret = self.answers k s d' ret := by
  rcases h with hk | ⟨h1, h2⟩
  · exact answers_congr _ _ k s d' ret (get_scalar2_config self key subkey d).1
      (get_scalar2_frame_other self key subkey k d (fun e => hk e.symm))
  · exact answers_congr _ _ k s d' ret (get_scalar2_config self key subkey d).1
      (get_scalar2_frame_kept self key subkey k d h1 h2)

end yaml_configuration

/-! ## The claims -/

namespace yaml_configuration

/-- C2, counterexample: a file that holds the single scalar `hello` loads; no key is
present in it, and `get_scalar("json_output", "dflt")` fails with `BadSubscript` instead
of returning `"dflt"`. -/
theorem C2_scalar_root_counterexample :
    (⟨"falco.yaml", .scalar "hello"⟩ : yaml_configuration).Loaded ∧
    (get_scalar ⟨"falco.yaml", .scalar "hello"⟩ "json_output" "dflt").result
      = .error .BadSubscript ∧
    (get_scalar ⟨"falco.yaml", .scalar "hello"⟩ "json_output" "dflt").result
      ≠ .ok "dflt" := by
  decide

/-- C2, amended: for every document whose root is not a scalar and every key that is
absent from it, the one-level `get_scalar<T>(key, default)` returns exactly `default` and
does not fail. -/
theorem C2_get_scalar_absent {T : Type} [convert T] (self : yaml_configuration)
    (key : String) (default_value : T) (hroot : self.m_root.IsScalar = false)
    (habsent : self.m_root.entry key = none) :
    (self.get_scalar key default_value).result = .ok default_value := by
  simp [get_scalar, Node.subscript_of_not_scalar _ _ hroot, habsent, Node.IsDefined]

/-- C2, witness: `notifications_rate` is absent from the document `json_output: "true"`. -/
theorem C2_get_scalar_absent_witness :
    (get_scalar ⟨"falco.yaml", .map [(.scalar "json_output", .scalar "true")]⟩
        "notifications_rate" (7 : uint32_t)).result = .ok 7 :=
  C2_get_scalar_absent _ "notifications_rate" 7 rfl rfl

/-- C3: for every document in which the path `key.subkey` is present with a scalar that
reads as the value `v` of type `T`, the two-level `get_scalar<T>(key, subkey, default)`
returns `v` for every `default`. -/
theorem C3_get_scalar2_present {T : Type} [convert T] (self : yaml_configuration)
    (key subkey : String) (c : Node) (text : String) (v default_value : T)
    (hkey : self.m_root.entry key = some c)
    (hsub : c.entry subkey = some (.scalar text))
    (hv : convert.decode (Node.scalar text) = some v) :
    (self.get_scalar2 key subkey default_value).result = .ok v :=
  get_scalar2_of_entry self key subkey default_value v c (.scalar text) hkey hsub rfl hv
    (Node.not_scalar_of_entry _ _ _ hkey) (Node.not_scalar_of_entry _ _ _ hsub)

/-- C3, witness: `file_output.filename` in the document of the header's comment. -/
theorem C3_get_scalar2_present_witness :
    (get_scalar2
        ⟨"falco.yaml",
          .map [(.scalar "file_output",
            .map [(.scalar "enabled", .scalar "true"),
                  (.scalar "filename", .scalar "output_file.txt")])]⟩
        "file_output" "filename" "dflt").result = .ok "output_file.txt" :=
  C3_get_scalar2_present _ "file_output" "filename"
    (.map [(.scalar "enabled", .scalar "true"), (.scalar "filename", .scalar "output_file.txt")])
    "output_file.txt" "output_file.txt" "dflt" rfl rfl rfl

/-- C4: for every document in which the node at `key` exists (is defined) but does not
convert to `T`, `get_scalar<T>(key, default)` fails with `BadConversion`, whatever
`default` is, after printing a diagnostic that carries the file path and the key. -/
theorem C4_get_scalar_type_mismatch {T : Type} [convert T] (self : yaml_configuration)
    (key : String) (n : Node) (default_value : T)
    (hkey : self.m_root.entry key = some n) (hdef : n.IsDefined = true)
    (hbad : (convert.decode n : Option T) = none) :
    (self.get_scalar key default_value).result = .error .BadConversion ∧
    (self.get_scalar key default_value).cerr
      = "Cannot read config file (" ++ self.m_path ++ "): wrong type at key " ++ key ++ "\n" := by
  simp [get_scalar, Node.subscript_of_not_scalar _ _ (Node.not_scalar_of_entry _ _ _ hkey),
    hkey, hdef, hbad, wrong_type_message]

/-- C4, witness: `notifications_rate: "not-a-number"` read as an unsigned integer. -/
theorem C4_get_scalar_type_mismatch_witness :
    (get_scalar ⟨"falco.yaml", .map [(.scalar "notifications_rate", .scalar "not-a-number")]⟩
        "notifications_rate" (1 : uint32_t)).result = .error .BadConversion ∧
    (get_scalar ⟨"falco.yaml", .map [(.scalar "notifications_rate", .scalar "not-a-number")]⟩
        "notifications_rate" (1 : uint32_t)).cerr
      = "Cannot read config file (" ++ "falco.yaml" ++ "): wrong type at key "
          ++ "notifications_rate" ++ "\n" :=
  C4_get_scalar_type_mismatch
    ⟨"falco.yaml", .map [(.scalar "notifications_rate", .scalar "not-a-number")]⟩
    "notifications_rate" (.scalar "not-a-number") 1 rfl rfl (by decide)

/-- C5, counterexample: in a document that is the single scalar `just text` the
top-level key `file_output` is missing, and `get_scalar("file_output", "enabled", "dflt")`
fails with `BadSubscript` instead of returning `"dflt"`. -/
theorem C5_scalar_root_counterexample :
    (⟨"falco.yaml", .scalar "just text"⟩ : yaml_configuration).Loaded ∧
    (get_scalar2 ⟨"falco.yaml", .scalar "just text"⟩ "file_output" "enabled" "dflt").result
      = .error .BadSubscript ∧
    (get_scalar2 ⟨"falco.yaml", .scalar "just text"⟩ "file_output" "enabled" "dflt").result
      ≠ .ok "dflt" := by
  decide

/-- C5, amended: for every document whose root is not a scalar, if the top-level `key`
is missing, or is a mapping that has no entry `subkey`, then the two-level
`get_scalar<T>(key, subkey, default)` returns `default` and does not fail. -/
theorem C5_get_scalar2_missing {T : Type} [convert T] (self : yaml_configuration)
    (key subkey : String) (default_value : T) (hroot : self.m_root.IsScalar = false)
    (hmissing : self.m_root.entry key = none ∨
      ∃ es, self.m_root.entry key = some (.map es) ∧ Node.find_value es subkey = none) :
    (self.get_scalar2 key subkey default_value).result = .ok default_value := by
  rcases hmissing with h | ⟨es, h, hsub⟩
  · have h1 : self.m_root.subscript key = .ok .undefined := by
      rw [Node.subscript_of_not_scalar _ _ hroot, h]; rfl
    have h2 : Node.undefined.subscript subkey = .ok .undefined := rfl
    simp [get_scalar2, h1, h2, Node.IsDefined]
  · have h1 : self.m_root.subscript key = .ok (.map es) := by
      rw [Node.subscript_of_not_scalar _ _ hroot, h]; rfl
    have h2 : (Node.map es).subscript subkey = .ok .undefined := by
      rw [Node.subscript_of_not_scalar (.map es) subkey rfl]
      simp [Node.entry, Node.map_entries, hsub]
    simp [get_scalar2, h1, h2, Node.IsDefined]

/-- C5, witness: `file_output` is a mapping without the entry `filename`. -/
theorem C5_get_scalar2_missing_witness :
    (get_scalar2
        ⟨"falco.yaml", .map [(.scalar "file_output", .map [(.scalar "enabled", .scalar "true")])]⟩
        "file_output" "filename" "dflt").result = .ok "dflt" :=
  C5_get_scalar2_missing _ "file_output" "filename" "dflt" rfl
    (Or.inr ⟨[(.scalar "enabled", .scalar "true")], rfl, rfl⟩)

/-- C9: for every document whose node at `name` is a sequence all of whose elements
convert to `T`, `get_sequence` succeeds and the caller's container afterwards is its
previous contents followed by the converted elements, in document order. -/
theorem C9_get_sequence_appends_in_order {T : Type} [convert T] (self : yaml_configuration)
    (name : String) (elements : List Node) (ret vs : List T)
    (hseq : self.m_root.entry name = some (.sequence elements))
    (hall : elements.map convert.decode = vs.map some) :
    (self.get_sequence ret name).result = .ok () ∧
    (self.get_sequence ret name).ret = ret ++ vs := by
  have h1 : self.m_root.subscript name = .ok (.sequence elements) := by
    rw [Node.subscript_of_not_scalar _ _ (Node.not_scalar_of_entry _ _ _ hseq), hseq]; rfl
  simp [get_sequence, h1, Node.IsDefined, Node.IsSequence, Node.items,
    append_items_all elements ret vs hall]

/-- C9, witness: the sequence `[a, b, c]` read into an empty container gives `a, b, c`. -/
theorem C9_get_sequence_appends_in_order_witness :
    (get_sequence
        ⟨"falco.yaml",
          .map [(.scalar "rules_file", .sequence [.scalar "a", .scalar "b", .scalar "c"])]⟩
        ([] : List String) "rules_file").result = .ok () ∧
    (get_sequence
        ⟨"falco.yaml",
          .map [(.scalar "rules_file", .sequence [.scalar "a", .scalar "b", .scalar "c"])]⟩
        ([] : List String) "rules_file").ret = [] ++ ["a", "b", "c"] :=
  C9_get_sequence_appends_in_order _ "rules_file" [.scalar "a", .scalar "b", .scalar "c"]
    [] ["a", "b", "c"] rfl rfl

/-- C10: for every document whose node at `name` is a bare scalar that converts to the
value `x` of type `T`, `get_sequence` succeeds and the caller's container afterwards is
its previous contents followed by the single element `x`. -/
theorem C10_get_sequence_bare_scalar {T : Type} [convert T] (self : yaml_configuration)
    (name text : String) (x : T) (ret : List T)
    (hscalar : self.m_root.entry name = some (.scalar text))
    (hx : convert.decode (Node.scalar text) = some x) :
    (self.get_sequence ret name).result = .ok () ∧
    (self.get_sequence ret name).ret = ret ++ [x] := by
  have h1 : self.m_root.subscript name = .ok (.scalar text) := by
    rw [Node.subscript_of_not_scalar _ _ (Node.not_scalar_of_entry _ _ _ hscalar), hscalar]; rfl
  simp [get_sequence, h1, Node.IsDefined, Node.IsSequence, Node.IsScalar, hx]

/-- C10, witness: `rules_file: x` read into a container that already holds `r0`. -/
theorem C10_get_sequence_bare_scalar_witness :
    (get_sequence ⟨"falco.yaml", .map [(.scalar "rules_file", .scalar "x")]⟩
        ["r0"] "rules_file").result = .ok () ∧
    (get_sequence ⟨"falco.yaml", .map [(.scalar "rules_file", .scalar "x")]⟩
        ["r0"] "rules_file").ret = ["r0"] ++ ["x"] :=
  C10_get_sequence_bare_scalar _ "rules_file" "x" "x" ["r0"] rfl rfl

end yaml_configuration

namespace yaml_configuration

/-- C11, counterexample: a file that holds the single scalar `hello` loads; the key
`rules_file` is absent from it, and `get_sequence` for `rules_file` fails with
`BadSubscript` instead of returning. -/
theorem C11_scalar_root_counterexample :
    (⟨"falco.yaml", .scalar "hello"⟩ : yaml_configuration).Loaded ∧
    (get_sequence ⟨"falco.yaml", .scalar "hello"⟩ ["r0"] "rules_file").result
      = .error .BadSubscript ∧
    (get_sequence ⟨"falco.yaml", .scalar "hello"⟩ ["r0"] "rules_file").result ≠ .ok () := by
  decide

/-- C11, amended: for every document whose root is not a scalar and in which `key` is
absent, `get_sequence` does not fail and leaves the caller's container exactly as it
was. -/
theorem C11_get_sequence_absent {T : Type} [convert T] (self : yaml_configuration)
    (name : String) (ret : List T) (hroot : self.m_root.IsScalar = false)
    (habsent : self.m_root.entry name = none) :
    (self.get_sequence ret name).result = .ok () ∧
    (self.get_sequence ret name).ret = ret := by
  simp [get_sequence, Node.subscript_of_not_scalar _ _ hroot, habsent, Node.IsDefined]

/-- C11, witness: `rules_file` is absent from the document `json_output: "true"`, and the
container that holds `r0` still holds `r0` alone. -/
theorem C11_get_sequence_absent_witness :
    (get_sequence ⟨"falco.yaml", .map [(.scalar "json_output", .scalar "true")]⟩
        ["r0"] "rules_file").result = .ok () ∧
    (get_sequence ⟨"falco.yaml", .map [(.scalar "json_output", .scalar "true")]⟩
        ["r0"] "rules_file").ret = ["r0"] :=
  C11_get_sequence_absent _ "rules_file" ["r0"] rfl rfl

/-- C12: for every document whose node at `key` is a sequence with at least one element
that does not convert to `T`, `get_sequence` fails with `BadConversion`: it neither skips
the element nor returns normally. -/
theorem C12_get_sequence_type_mismatch {T : Type} [convert T] (self : yaml_configuration)
    (name : String) (elements : List Node) (ret : List T)
    (hseq : self.m_root.entry name = some (.sequence elements))
    (hbad : ∃ item ∈ elements, (convert.decode item : Option T) = none) :
    (self.get_sequence ret name).result = .error .BadConversion ∧
    (self.get_sequence ret name).result ≠ .ok () := by
  have h1 : self.m_root.subscript name = .ok (.sequence elements) := by
    rw [Node.subscript_of_not_scalar _ _ (Node.not_scalar_of_entry _ _ _ hseq), hseq]; rfl
  have h2 : (self.get_sequence ret name).result = .error .BadConversion := by
    simp [get_sequence, h1, Node.IsDefined, Node.IsSequence, Node.items,
      append_items_fails elements ret hbad]
  rw [h2]
  exact ⟨rfl, by simp⟩

/-- C12, witness: the second of the three rates `[1, x, 3]` is not a number. -/
theorem C12_get_sequence_type_mismatch_witness :
    (get_sequence
        ⟨"falco.yaml", .map [(.scalar "rates", .sequence [.scalar "1", .scalar "x", .scalar "3"])]⟩
        ([] : List uint32_t) "rates").result = .error .BadConversion ∧
    (get_sequence
        ⟨"falco.yaml", .map [(.scalar "rates", .sequence [.scalar "1", .scalar "x", .scalar "3"])]⟩
        ([] : List uint32_t) "rates").result ≠ .ok () :=
  C12_get_sequence_type_mismatch _ "rates" [.scalar "1", .scalar "x", .scalar "3"] [] rfl
    ⟨.scalar "x", by simp, by decide⟩

end yaml_configuration

namespace falco_configuration

/-- C13: `set_cmdline_option` fails with `InvalidOverrideError`, leaving the document store
as it was, for every specifier without `=` and for every specifier whose key portion (the
text before the first `=`) has more than one `.`; a specifier that is not rejected in this
way has a key portion with at most one `.`, that is, a 1- or 2-level key. -/
theorem C13_set_cmdline_option_rejects (m_config : yaml_configuration) (spec : String) :
    (('=' ∉ spec.toList ∨
        ∃ key value, spec.toList = key ++ '=' :: value ∧ '=' ∉ key ∧ 2 ≤ key.count '.') →
      (set_cmdline_option m_config spec).result = .error .InvalidOverrideError ∧
      (set_cmdline_option m_config spec).m_config = m_config) ∧
    ((set_cmdline_option m_config spec).result ≠ .error .InvalidOverrideError →
      ∃ key value, spec.toList = key ++ '=' :: value ∧ '=' ∉ key ∧ key.count '.' ≤ 1) := by
  constructor
  · rintro (h | ⟨key, value, hspec, hkey, hdots⟩)
    · unfold set_cmdline_option
      rw [split_first_none '=' _ h]
      exact ⟨rfl, rfl⟩
    · obtain ⟨first, subkey, hsplit, hmem⟩ := split_first_two '.' key hdots
      have hne : key.isEmpty = false := by
        cases key with
        | nil => simp at hdots
        | cons c cs => rfl
      unfold set_cmdline_option
      rw [hspec, split_first_append '=' key value hkey]
      simp [hne, hsplit, hmem]
  · intro haccepted
    unfold set_cmdline_option at haccepted
    cases hsplit : split_first '=' spec.toList with
    | none =>
      rw [hsplit] at haccepted
      exact absurd rfl haccepted
    | some p =>
      obtain ⟨key, value⟩ := p
      obtain ⟨hspec, hkey⟩ := split_first_some '=' _ key value hsplit
      refine ⟨key, value, hspec, hkey, ?_⟩
      by_contra hmany
      obtain ⟨first, subkey, hdot, hmem⟩ := split_first_two '.' key (by omega)
      have hne : key.isEmpty = false := by
        cases key with
        | nil => simp [split_first] at hdot
        | cons c cs => rfl
      rw [hsplit] at haccepted
      simp [hne, hdot, hmem] at haccepted

/-- C13, witness: the specifiers `noequalsign` and `a.b.c=1` are rejected. -/
theorem C13_set_cmdline_option_rejects_witness :
    ((set_cmdline_option ⟨"falco.yaml", .map []⟩ "noequalsign").result
        = .error .InvalidOverrideError ∧
      (set_cmdline_option ⟨"falco.yaml", .map []⟩ "noequalsign").m_config
        = ⟨"falco.yaml", .map []⟩) ∧
    ((set_cmdline_option ⟨"falco.yaml", .map []⟩ "a.b.c=1").result
        = .error .InvalidOverrideError ∧
      (set_cmdline_option ⟨"falco.yaml", .map []⟩ "a.b.c=1").m_config
        = ⟨"falco.yaml", .map []⟩) :=
  ⟨(C13_set_cmdline_option_rejects ⟨"falco.yaml", .map []⟩ "noequalsign").1
      (Or.inl (by decide)),
   (C13_set_cmdline_option_rejects ⟨"falco.yaml", .map []⟩ "a.b.c=1").1
      (Or.inr ⟨['a', '.', 'b', '.', 'c'], ['1'], rfl, by decide, by decide⟩)⟩

/-- C14: when no readable file exists at `path`, the constructor of the document store
fails with `BadFile` (the load error), so that no store is produced, after printing a
diagnostic that contains `path`; `init(path, overrides)` fails with the same error and the
same diagnostic, whatever the overrides. -/
theorem C14_missing_file_fails (files : String → Option String)
    (Load : String → Except String Node) (path : String) (overrides : List String)
    (hmissing : files path = none) :
    (yaml_configuration.construct files Load path).result = .error .BadFile ∧
    (yaml_configuration.construct files Load path).cerr
      = "Error reading config file (" ++ path ++ "): " ++ "bad file" ++ "\n" ∧
    (∃ before after : String,
      (yaml_configuration.construct files Load path).cerr = before ++ path ++ after) ∧
    (init files Load path overrides).result = .error (.yaml .BadFile) ∧
    (init files Load path overrides).cerr
      = (yaml_configuration.construct files Load path).cerr := by
  have hc : yaml_configuration.construct files Load path
      = ⟨.error .BadFile,
          "Error reading config file (" ++ path ++ "): " ++ "bad file" ++ "\n"⟩ := by
    simp [yaml_configuration.construct, LoadFile, hmissing]
  refine ⟨by rw [hc], by rw [hc],
    ⟨"Error reading config file (", "): " ++ "bad file" ++ "\n", ?_⟩, ?_, ?_⟩
  · rw [hc]
    simp only [String.append_assoc]
  · simp [init, hc]
  · simp [init, hc]

/-- C14, witness: a file system without any file, asked for `/etc/falco.yaml`. -/
theorem C14_missing_file_fails_witness :
    (yaml_configuration.construct (fun _ => none) (fun _ => .ok .null)
        "/etc/falco.yaml").result = .error .BadFile ∧
    (yaml_configuration.construct (fun _ => none) (fun _ => .ok .null)
        "/etc/falco.yaml").cerr
      = "Error reading config file (" ++ "/etc/falco.yaml" ++ "): " ++ "bad file" ++ "\n" ∧
    (∃ before after : String,
      (yaml_configuration.construct (fun _ => none) (fun _ => .ok .null)
        "/etc/falco.yaml").cerr = before ++ "/etc/falco.yaml" ++ after) ∧
    (init (fun _ => none) (fun _ => .ok .null) "/etc/falco.yaml" ["json_output=true"]).result
      = .error (.yaml .BadFile) ∧
    (init (fun _ => none) (fun _ => .ok .null) "/etc/falco.yaml" ["json_output=true"]).cerr
      = (yaml_configuration.construct (fun _ => none) (fun _ => .ok .null)
          "/etc/falco.yaml").cerr :=
  C14_missing_file_fails (fun _ => none) (fun _ => .ok .null) "/etc/falco.yaml"
    ["json_output=true"] rfl

end falco_configuration

namespace yaml_configuration

/-- C15: if the document root is undefined, the one-level and the two-level `set_scalar`
are no-ops: they do not fail, they leave the object as it was, and the `get_scalar` on the
same path that follows returns its default. -/
theorem C15_set_scalar_undefined_root {T : Type} [convert T] (self : yaml_configuration)
    (key subkey : String) (value default_value : T) (hroot : self.m_root.IsDefined = false) :
    ((self.set_scalar key value).result = .ok () ∧
      (self.set_scalar key value).config = self ∧
      ((self.set_scalar key value).config.get_scalar key default_value).result
        = .ok default_value) ∧
    ((self.set_scalar2 key subkey value).result = .ok () ∧
      (self.set_scalar2 key subkey value).config = self ∧
      ((self.set_scalar2 key subkey value).config.get_scalar2 key subkey default_value).result
        = .ok default_value) := by
  have hundef : self.m_root = .undefined := by
    cases h : self.m_root <;> simp_all [Node.IsDefined]
  have h1 : self.set_scalar key value = ⟨.ok (), "", self⟩ := by simp [set_scalar, hroot]
  have h2 : self.set_scalar2 key subkey value = ⟨.ok (), "", self⟩ := by
    simp [set_scalar2, hroot]
  have h3 : (self.get_scalar key default_value).result = .ok default_value := by
    simp [get_scalar, hundef, Node.subscript, Node.IsScalar, Node.entry, Node.map_entries,
      Node.find_value, Node.IsDefined]
  have h4 : (self.get_scalar2 key subkey default_value).result = .ok default_value := by
    simp [get_scalar2, hundef, Node.subscript, Node.IsScalar, Node.entry, Node.map_entries,
      Node.find_value, Node.IsDefined]
  rw [h1, h2]
  exact ⟨⟨rfl, rfl, h3⟩, rfl, rfl, h4⟩

/-- C15, witness: an object whose root is undefined. -/
theorem C15_set_scalar_undefined_root_witness :
    ((set_scalar ⟨"falco.yaml", .undefined⟩ "file_output" "true").result = .ok () ∧
      (set_scalar ⟨"falco.yaml", .undefined⟩ "file_output" "true").config
        = ⟨"falco.yaml", .undefined⟩ ∧
      (get_scalar (set_scalar ⟨"falco.yaml", .undefined⟩ "file_output" "true").config
        "file_output" "dflt").result = .ok "dflt") ∧
    ((set_scalar2 ⟨"falco.yaml", .undefined⟩ "file_output" "enabled" "true").result = .ok () ∧
      (set_scalar2 ⟨"falco.yaml", .undefined⟩ "file_output" "enabled" "true").config
        = ⟨"falco.yaml", .undefined⟩ ∧
      (get_scalar2
        (set_scalar2 ⟨"falco.yaml", .undefined⟩ "file_output" "enabled" "true").config
        "file_output" "enabled" "dflt").result = .ok "dflt") :=
  C15_set_scalar_undefined_root ⟨"falco.yaml", .undefined⟩ "file_output" "enabled"
    "true" "dflt" rfl

end yaml_configuration

namespace WithAliases

/-- C16, counterexample: in the document `a: &x "1"`, `b: *x` the keys `a` and `b` hold
one node.  `set_scalar("a", "2")` rewrites that node, and `get_scalar("b", "dflt")`, which
returned `"1"` before the call, returns `"2"` after it. -/
theorem C16_alias_counterexample :
    (⟨"falco.yaml", .map [(.scalar "a", .anchored 0), (.scalar "b", .anchored 0)],
        [.scalar "1"]⟩ : yaml_configuration).Loaded ∧
    (yaml_configuration.set_scalar
        ⟨"falco.yaml", .map [(.scalar "a", .anchored 0), (.scalar "b", .anchored 0)],
          [.scalar "1"]⟩
        "a" "2").result = .ok () ∧
    (yaml_configuration.get_scalar
        ⟨"falco.yaml", .map [(.scalar "a", .anchored 0), (.scalar "b", .anchored 0)],
          [.scalar "1"]⟩
        "b" "dflt").result = .ok "1" ∧
    (yaml_configuration.get_scalar
        (yaml_configuration.set_scalar
          ⟨"falco.yaml", .map [(.scalar "a", .anchored 0), (.scalar "b", .anchored 0)],
            [.scalar "1"]⟩
          "a" "2").config
        "b" "dflt").result = .ok "2" := by
  decide

/-- C16, amended: the one-level setter changes a single location of a document without
aliases.  For every document in which no alias stands and every pair of distinct top-level
keys `k` and `k'`, after `set_scalar(k, v)` the reads at `k'`, that is
`get_scalar(k', default)`, `get_scalar(k', subkey, default)` and `get_sequence(k')`, answer
exactly what they answered before the call. -/
theorem C16_set_scalar_single_location {T U : Type} [convert T] [convert U]
    (self : yaml_configuration) (k k' subkey : String) (v : T) (default_value : U)
    (ret : List U) (hfree : Shared.alias_free self.m_root = true) (hkeys : k ≠ k') :
    ((self.set_scalar k v).config.get_scalar k' default_value).observed
      = (self.get_scalar k' default_value).observed ∧
    ((self.set_scalar k v).config.get_scalar2 k' subkey default_value).observed
      = (self.get_scalar2 k' subkey default_value).observed ∧
    ((self.set_scalar k v).config.get_sequence ret k').observed
      = (self.get_sequence ret k').observed := by
  obtain ⟨doc, anchors, rfl⟩ := yaml_configuration.exists_aliased self hfree
  have h := yaml_configuration.set_scalar_answers doc k k' subkey v default_value ret hkeys
  rw [← yaml_configuration.aliased_answers _ anchors,
    ← yaml_configuration.aliased_answers _ anchors,
    ← yaml_configuration.aliased_set_scalar_config] at h
  simp only [yaml_configuration.answers, Prod.mk.injEq] at h
  exact h


/-- C16, witness: writing `json_output` in a document without aliases that also holds
`rules_file`, which is read afterwards. -/
theorem C16_set_scalar_single_location_witness :
    (yaml_configuration.get_scalar
        (yaml_configuration.set_scalar
          ⟨"falco.yaml",
            .map [(.scalar "json_output", .scalar "false"),
                  (.scalar "rules_file", .sequence [.scalar "a", .scalar "b"])], []⟩
          "json_output" "true").config
        "rules_file" "dflt").observed
      = (yaml_configuration.get_scalar
          ⟨"falco.yaml",
            .map [(.scalar "json_output", .scalar "false"),
                  (.scalar "rules_file", .sequence [.scalar "a", .scalar "b"])], []⟩
          "rules_file" "dflt").observed ∧
    (yaml_configuration.get_scalar2
        (yaml_configuration.set_scalar
          ⟨"falco.yaml",
            .map [(.scalar "json_output", .scalar "false"),
                  (.scalar "rules_file", .sequence [.scalar "a", .scalar "b"])], []⟩
          "json_output" "true").config
        "rules_file" "0" "dflt").observed
      = (yaml_configuration.get_scalar2
          ⟨"falco.yaml",
            .map [(.scalar "json_output", .scalar "false"),
                  (.scalar "rules_file", .sequence [.scalar "a", .scalar "b"])], []⟩
          "rules_file" "0" "dflt").observed ∧
    (yaml_configuration.get_sequence
        (yaml_configuration.set_scalar
          ⟨"falco.yaml",
            .map [(.scalar "json_output", .scalar "false"),
                  (.scalar "rules_file", .sequence [.scalar "a", .scalar "b"])], []⟩
          "json_output" "true").config
        ["r0"] "rules_file").observed
      = (yaml_configuration.get_sequence
          ⟨"falco.yaml",
            .map [(.scalar "json_output", .scalar "false"),
                  (.scalar "rules_file", .sequence [.scalar "a", .scalar "b"])], []⟩
          ["r0"] "rules_file").observed :=
  C16_set_scalar_single_location
    ⟨"falco.yaml",
      .map [(.scalar "json_output", .scalar "false"),
            (.scalar "rules_file", .sequence [.scalar "a", .scalar "b"])], []⟩
    "json_output" "rules_file" "0" "true" "dflt" ["r0"] rfl (by decide)

/-- C17, counterexample.  In the document `file_output: &o {enabled: "true"}`,
`syslog_output: *o` the two keys hold one node: `set_scalar("file_output", "enabled",
"false")` changes what the other top-level key answers, `get_scalar("syslog_output",
"enabled", "dflt")` going from `"true"` to `"false"`.  In the document
`limits: {rate: &r "10", burst: *r}` the two subkeys hold one node:
`set_scalar("limits", "rate", "20")` changes what the other subkey answers,
`get_scalar("limits", "burst", "dflt")` going from `"10"` to `"20"`. -/
theorem C17_alias_counterexample :
    ((⟨"falco.yaml",
        .map [(.scalar "file_output", .anchored 0), (.scalar "syslog_output", .anchored 0)],
        [.map [(.scalar "enabled", .scalar "true")]]⟩ : yaml_configuration).Loaded ∧
      (yaml_configuration.set_scalar2
        ⟨"falco.yaml",
          .map [(.scalar "file_output", .anchored 0), (.scalar "syslog_output", .anchored 0)],
          [.map [(.scalar "enabled", .scalar "true")]]⟩
        "file_output" "enabled" "false").result = .ok () ∧
      (yaml_configuration.get_scalar2
        ⟨"falco.yaml",
          .map [(.scalar "file_output", .anchored 0), (.scalar "syslog_output", .anchored 0)],
          [.map [(.scalar "enabled", .scalar "true")]]⟩
        "syslog_output" "enabled" "dflt").result = .ok "true" ∧
      (yaml_configuration.get_scalar2
        (yaml_configuration.set_scalar2
          ⟨"falco.yaml",
            .map [(.scalar "file_output", .anchored 0), (.scalar "syslog_output", .anchored 0)],
            [.map [(.scalar "enabled", .scalar "true")]]⟩
          "file_output" "enabled" "false").config
        "syslog_output" "enabled" "dflt").result = .ok "false") ∧
    ((⟨"falco.yaml",
        .map [(.scalar "limits", .map [(.scalar "rate", .anchored 0), (.scalar "burst", .anchored 0)])],
        [.scalar "10"]⟩ : yaml_configuration).Loaded ∧
      (yaml_configuration.set_scalar2
        ⟨"falco.yaml",
          .map [(.scalar "limits", .map [(.scalar "rate", .anchored 0), (.scalar "burst", .anchored 0)])],
          [.scalar "10"]⟩
        "limits" "rate" "20").result = .ok () ∧
      (yaml_configuration.get_scalar2
        ⟨"falco.yaml",
          .map [(.scalar "limits", .map [(.scalar "rate", .anchored 0), (.scalar "burst", .anchored 0)])],
          [.scalar "10"]⟩
        "limits" "burst" "dflt").result = .ok "10" ∧
      (yaml_configuration.get_scalar2
        (yaml_configuration.set_scalar2
          ⟨"falco.yaml",
            .map [(.scalar "limits", .map [(.scalar "rate", .anchored 0), (.scalar "burst", .anchored 0)])],
            [.scalar "10"]⟩
          "limits" "rate" "20").config
        "limits" "burst" "dflt").result = .ok "20") := by
  decide

/-- C17, amended: the two-level setter changes a single location of a document without
aliases.  For every document in which no alias stands, every key `k` and subkeys `s`,
`s'`: if `s ≠ s'`, then after `set_scalar(k, s, v)` the read `get_scalar(k, s', default)`
answers what it answered before (the entries next to `s` under `k` are kept); and for
every top-level key `k' ≠ k` the reads at `k'` answer what they answered before. -/
theorem C17_set_scalar2_single_location {T U : Type} [convert T] [convert U]
    (self : yaml_configuration) (k s s' k' subkey : String) (v : T) (default_value : U)
    (ret : List U) (hfree : Shared.alias_free self.m_root = true) :
    (s ≠ s' →
      ((self.set_scalar2 k s v).config.get_scalar2 k s' default_value).observed
        = (self.get_scalar2 k s' default_value).observed) ∧
    (k ≠ k' →
      (self.set_scalar2 k s v).config.answers k' subkey default_value ret
        = self.answers k' subkey default_value ret) := by
  obtain ⟨doc, anchors, rfl⟩ := yaml_configuration.exists_aliased self hfree
  rw [yaml_configuration.aliased_set_scalar2_config]
  constructor
  · intro hs
    rw [yaml_configuration.aliased_get_scalar2_observed,
      yaml_configuration.aliased_get_scalar2_observed]
    exact yaml_configuration.set_scalar2_sibling doc k s s' v default_value hs
  · intro hk
    rw [yaml_configuration.aliased_answers, yaml_configuration.aliased_answers]
    exact yaml_configuration.set_scalar2_answers doc k s k' subkey v default_value ret hk


/-- C17, witness: in a document without aliases, writing `file_output.filename` keeps
`file_output.enabled` and leaves the reads at `rules_file` alone. -/
theorem C17_set_scalar2_single_location_witness :
    (yaml_configuration.get_scalar2
        (yaml_configuration.set_scalar2
          ⟨"falco.yaml",
            .map [(.scalar "file_output",
                    .map [(.scalar "enabled", .scalar "true"),
                          (.scalar "filename", .scalar "old.txt")]),
                  (.scalar "rules_file", .sequence [.scalar "a", .scalar "b"])], []⟩
          "file_output" "filename" "new.txt").config
        "file_output" "enabled" "dflt").observed
      = (yaml_configuration.get_scalar2
          ⟨"falco.yaml",
            .map [(.scalar "file_output",
                    .map [(.scalar "enabled", .scalar "true"),
                          (.scalar "filename", .scalar "old.txt")]),
                  (.scalar "rules_file", .sequence [.scalar "a", .scalar "b"])], []⟩
          "file_output" "enabled" "dflt").observed ∧
    (yaml_configuration.set_scalar2
        ⟨"falco.yaml",
          .map [(.scalar "file_output",
                  .map [(.scalar "enabled", .scalar "true"),
                        (.scalar "filename", .scalar "old.txt")]),
                (.scalar "rules_file", .sequence [.scalar "a", .scalar "b"])], []⟩
        "file_output" "filename" "new.txt").config.answers "rules_file" "0" "dflt" ["r0"]
      = (⟨"falco.yaml",
          .map [(.scalar "file_output",
                  .map [(.scalar "enabled", .scalar "true"),
                        (.scalar "filename", .scalar "old.txt")]),
                (.scalar "rules_file", .sequence [.scalar "a", .scalar "b"])], []⟩
          : yaml_configuration).answers "rules_file" "0" "dflt" ["r0"] :=
  ⟨(C17_set_scalar2_single_location
      ⟨"falco.yaml",
        .map [(.scalar "file_output",
                .map [(.scalar "enabled", .scalar "true"),
                      (.scalar "filename", .scalar "old.txt")]),
              (.scalar "rules_file", .sequence [.scalar "a", .scalar "b"])], []⟩
      "file_output" "filename" "enabled" "rules_file" "0" "new.txt" "dflt" ["r0"] rfl).1
      (by decide),
   (C17_set_scalar2_single_location
      ⟨"falco.yaml",
        .map [(.scalar "file_output",
                .map [(.scalar "enabled", .scalar "true"),
                      (.scalar "filename", .scalar "old.txt")]),
              (.scalar "rules_file", .sequence [.scalar "a", .scalar "b"])], []⟩
      "file_output" "filename" "enabled" "rules_file" "0" "new.txt" "dflt" ["r0"] rfl).2
      (by decide)⟩

/-- C18, counterexample.  In the document `rules_file: [a, b]`, which holds no alias, the
read `get_scalar("rules_file", "x", "dflt")` returns its default, and yaml-cpp's
`operator[]` with a string key has by then turned the sequence at `rules_file` into a
mapping: before that read `get_sequence("rules_file")` puts `a, b` into an empty
container, after it the same call puts nothing into it.  In the document
`a: &s [x, y]`, `b: *s` the keys `a` and `b` hold one node, and after
`get_scalar("a", "z", "dflt")` it is `get_sequence("b")`, at another key, that puts
nothing into the container. -/
theorem C18_two_level_read_counterexample :
    ((⟨"falco.yaml", .map [(.scalar "rules_file", .sequence [.scalar "a", .scalar "b"])], []⟩
        : yaml_configuration).Loaded ∧
      (yaml_configuration.get_scalar2
        ⟨"falco.yaml", .map [(.scalar "rules_file", .sequence [.scalar "a", .scalar "b"])], []⟩
        "rules_file" "x" "dflt").result = .ok "dflt" ∧
      (yaml_configuration.get_sequence
        ⟨"falco.yaml", .map [(.scalar "rules_file", .sequence [.scalar "a", .scalar "b"])], []⟩
        ([] : List String) "rules_file").ret = ["a", "b"] ∧
      (yaml_configuration.get_sequence
        (yaml_configuration.get_scalar2
          ⟨"falco.yaml", .map [(.scalar "rules_file", .sequence [.scalar "a", .scalar "b"])],
            []⟩
          "rules_file" "x" "dflt").config
        ([] : List String) "rules_file").ret = []) ∧
    ((⟨"falco.yaml", .map [(.scalar "a", .anchored 0), (.scalar "b", .anchored 0)],
        [.sequence [.scalar "x", .scalar "y"]]⟩ : yaml_configuration).Loaded ∧
      (yaml_configuration.get_scalar2
        ⟨"falco.yaml", .map [(.scalar "a", .anchored 0), (.scalar "b", .anchored 0)],
          [.sequence [.scalar "x", .scalar "y"]]⟩
        "a" "z" "dflt").result = .ok "dflt" ∧
      (yaml_configuration.get_sequence
        ⟨"falco.yaml", .map [(.scalar "a", .anchored 0), (.scalar "b", .anchored 0)],
          [.sequence [.scalar "x", .scalar "y"]]⟩
        ([] : List String) "b").ret = ["x", "y"] ∧
      (yaml_configuration.get_sequence
        (yaml_configuration.get_scalar2
          ⟨"falco.yaml", .map [(.scalar "a", .anchored 0), (.scalar "b", .anchored 0)],
            [.sequence [.scalar "x", .scalar "y"]]⟩
          "a" "z" "dflt").config
        ([] : List String) "b").ret = []) := by
  decide

/-- C18, amended: reads do not change what a document without aliases answers, but for
the two-level read of a key that holds a sequence or a null.  For every document in which
no alias stands: after a one-level `get_scalar` or a `get_sequence` every later read
(one-level `get_scalar`, two-level `get_scalar`, `get_sequence`) answers what it would
have answered without that first read; after a two-level
`get_scalar(key, subkey, default)` every later two-level `get_scalar` does so as well, and
so does every later read at a top-level key `k` provided that `k` is another key than
`key`, or that the node at `key` is neither a sequence nor a null. -/
theorem C18_reads_keep_answers {T U : Type} [convert T] [convert U]
    (self : yaml_configuration) (key subkey : String) (d : T) (ret : List T)
    (k s : String) (default_value : U) (later : List U)
    (hfree : Shared.alias_free self.m_root = true) :
    (self.get_scalar key d).config.answers k s default_value later
      = self.answers k s default_value later ∧
    (self.get_sequence ret key).config.answers k s default_value later
      = self.answers k s default_value later ∧
    ((self.get_scalar2 key subkey d).config.get_scalar2 k s default_value).observed
      = (self.get_scalar2 k s default_value).observed ∧
    ((k ≠ key ∨
        ((self.value_at key).IsSequence = false ∧ (self.value_at key).IsNull = false)) →
      (self.get_scalar2 key subkey d).config.answers k s default_value later
        = self.answers k s default_value later) := by
  obtain ⟨doc, anchors, rfl⟩ := yaml_configuration.exists_aliased self hfree
  rw [yaml_configuration.aliased_get_scalar_config,
    yaml_configuration.aliased_get_sequence_config,
    yaml_configuration.aliased_get_scalar2_config, yaml_configuration.aliased_value_at]
  simp only [yaml_configuration.aliased_answers,
    yaml_configuration.aliased_get_scalar2_observed]
  exact ⟨yaml_configuration.get_scalar_answers doc key k s d default_value later,
    yaml_configuration.get_sequence_answers doc key k s ret default_value later,
    yaml_configuration.get_scalar2_below doc key subkey k s d default_value,
    yaml_configuration.get_scalar2_answers doc key subkey k s d default_value later⟩

/-- C18, witness: in the document `file_output: {enabled: "true"}`, `rules_file: [a, b]`,
which holds no alias, the two-level read of the missing `file_output.filename` leaves the
later reads at `file_output` (a mapping) and at `rules_file` (another key) as they
were. -/
theorem C18_reads_keep_answers_witness :
    (yaml_configuration.get_scalar2
        ⟨"falco.yaml",
          .map [(.scalar "file_output", .map [(.scalar "enabled", .scalar "true")]),
                (.scalar "rules_file", .sequence [.scalar "a", .scalar "b"])], []⟩
        "file_output" "filename" "dflt").config.answers "file_output" "enabled" "d" ["r0"]
      = (⟨"falco.yaml",
          .map [(.scalar "file_output", .map [(.scalar "enabled", .scalar "true")]),
                (.scalar "rules_file", .sequence [.scalar "a", .scalar "b"])], []⟩
          : yaml_configuration).answers "file_output" "enabled" "d" ["r0"] ∧
    (yaml_configuration.get_scalar2
        ⟨"falco.yaml",
          .map [(.scalar "file_output", .map [(.scalar "enabled", .scalar "true")]),
                (.scalar "rules_file", .sequence [.scalar "a", .scalar "b"])], []⟩
        "file_output" "filename" "dflt").config.answers "rules_file" "0" "d" ["r0"]
      = (⟨"falco.yaml",
          .map [(.scalar "file_output", .map [(.scalar "enabled", .scalar "true")]),
                (.scalar "rules_file", .sequence [.scalar "a", .scalar "b"])], []⟩
          : yaml_configuration).answers "rules_file" "0" "d" ["r0"] :=
  ⟨(C18_reads_keep_answers
      ⟨"falco.yaml",
        .map [(.scalar "file_output", .map [(.scalar "enabled", .scalar "true")]),
              (.scalar "rules_file", .sequence [.scalar "a", .scalar "b"])], []⟩
      "file_output" "filename" "dflt" ([] : List String) "file_output" "enabled" "d"
      ["r0"] rfl).2.2.2 (Or.inr ⟨rfl, rfl⟩),
   (C18_reads_keep_answers
      ⟨"falco.yaml",
        .map [(.scalar "file_output", .map [(.scalar "enabled", .scalar "true")]),
              (.scalar "rules_file", .sequence [.scalar "a", .scalar "b"])], []⟩
      "file_output" "filename" "dflt" ([] : List String) "rules_file" "0" "d"
      ["r0"] rfl).2.2.2 (Or.inl (by decide))⟩

end WithAliases

namespace yaml_configuration

/-- C19: for every document whose node at `key` is defined but is neither a sequence nor
a scalar (a mapping or a null), `get_sequence` does not fail and leaves the caller's
container unchanged. -/
theorem C19_get_sequence_other_node {T : Type} [convert T] (self : yaml_configuration)
    (name : String) (node : Node) (ret : List T)
    (hnode : self.m_root.entry name = some node) (hdef : node.IsDefined = true)
    (hseq : node.IsSequence = false) (hscalar : node.IsScalar = false) :
    (self.get_sequence ret name).result = .ok () ∧
    (self.get_sequence ret name).ret = ret := by
  have h1 : self.m_root.subscript name = .ok node := by
    rw [Node.subscript_of_not_scalar _ _ (Node.not_scalar_of_entry _ _ _ hnode), hnode]; rfl
  simp [get_sequence, h1, hdef, hseq, hscalar]

/-- C19, witness: `file_output` is a mapping and `rules_file` is null; the container that
holds `r0` is left as it is by both calls. -/
theorem C19_get_sequence_other_node_witness :
    ((get_sequence
        ⟨"falco.yaml",
          .map [(.scalar "file_output", .map [(.scalar "enabled", .scalar "true")]),
                (.scalar "rules_file", .null)]⟩
        ["r0"] "file_output").result = .ok () ∧
      (get_sequence
        ⟨"falco.yaml",
          .map [(.scalar "file_output", .map [(.scalar "enabled", .scalar "true")]),
                (.scalar "rules_file", .null)]⟩
        ["r0"] "file_output").ret = ["r0"]) ∧
    ((get_sequence
        ⟨"falco.yaml",
          .map [(.scalar "file_output", .map [(.scalar "enabled", .scalar "true")]),
                (.scalar "rules_file", .null)]⟩
        ["r0"] "rules_file").result = .ok () ∧
      (get_sequence
        ⟨"falco.yaml",
          .map [(.scalar "file_output", .map [(.scalar "enabled", .scalar "true")]),
                (.scalar "rules_file", .null)]⟩
        ["r0"] "rules_file").ret = ["r0"]) :=
  ⟨C19_get_sequence_other_node _ "file_output" (.map [(.scalar "enabled", .scalar "true")])
      ["r0"] rfl rfl rfl rfl,
   C19_get_sequence_other_node _ "rules_file" .null ["r0"] rfl rfl rfl rfl⟩

/-- C20: `get_sequence` is not atomic on failure.  For every document whose node at
`key` is a sequence whose first `i` elements convert to `T` (to the values `vs`) and whose
element at index `i` does not, `get_sequence` fails with `BadConversion` and the caller's
container then holds its previous contents followed by exactly those first `i` converted
values, in document order. -/
theorem C20_get_sequence_partial_append {T : Type} [convert T] (self : yaml_configuration)
    (name : String) (good : List Node) (bad : Node) (rest : List Node) (ret vs : List T)
    (hseq : self.m_root.entry name = some (.sequence (good ++ bad :: rest)))
    (hgood : good.map convert.decode = vs.map some)
    (hbad : (convert.decode bad : Option T) = none) :
    (self.get_sequence ret name).result = .error .BadConversion ∧
    (self.get_sequence ret name).ret = ret ++ vs ∧
    vs.length = good.length := by
  have h1 : self.m_root.subscript name = .ok (.sequence (good ++ bad :: rest)) := by
    rw [Node.subscript_of_not_scalar _ _ (Node.not_scalar_of_entry _ _ _ hseq), hseq]; rfl
  have hlen : vs.length = good.length := by
    have := congrArg List.length hgood
    simpa using this.symm
  simp [get_sequence, h1, Node.IsDefined, Node.IsSequence, Node.items,
    append_items_stops good bad rest ret vs hgood hbad, hlen]

/-- C20, witness: of the rates `[1, 2, x, 4]` the first two are appended to the container
that holds `7` before the call fails on `x`. -/
theorem C20_get_sequence_partial_append_witness :
    (get_sequence
        ⟨"falco.yaml",
          .map [(.scalar "rates",
            .sequence ([.scalar "1", .scalar "2"] ++ .scalar "x" :: [.scalar "4"]))]⟩
        [(7 : uint32_t)] "rates").result = .error .BadConversion ∧
    (get_sequence
        ⟨"falco.yaml",
          .map [(.scalar "rates",
            .sequence ([.scalar "1", .scalar "2"] ++ .scalar "x" :: [.scalar "4"]))]⟩
        [(7 : uint32_t)] "rates").ret = [7] ++ [1, 2] ∧
    [(1 : uint32_t), 2].length = [Node.scalar "1", Node.scalar "2"].length :=
  C20_get_sequence_partial_append _ "rates" [.scalar "1", .scalar "2"] (.scalar "x")
    [.scalar "4"] [7] [1, 2] rfl (by decide) (by decide)

end yaml_configuration
